import Mathlib

/-!
Verification development for the pylidar grid-spatial-index core
(`pylidar/toolbox/indexing/gridindex.py`) and the LAS→SPDV4 scaling setup
(`pylidar/toolbox/translate/las2spdv4.py`).

Numeric values (coordinates, bin sizes, gains, offsets) are modelled as
rationals.  Stateful driver calls (`setScaling`, `setHeader`, `writeData`,
progress reporting) are modelled as event traces; a Python exception is
modelled as an error value that aborts the trace.
-/

namespace PylidarSpec

/-- The indexing-method constants `INDEX_CARTESIAN`, `INDEX_SPHERICAL`,
`INDEX_CYLINDRICAL`, `INDEX_POLAR`, `INDEX_SCAN` (copied by `gridindex.py`
from the spdv4 module). -/
inductive IndexMethod where
  | cartesian
  | spherical
  | cylindrical
  | polar
  | scan
deriving DecidableEq, Repr

/-- Python exception kinds that the modelled code can raise. -/
inductive PyError where
  | typeError
  | keyError
  | nameError
  | divByZero
  | liDARInvalidSetting
  | liDARArrayColumnError
  | liDARSpatialIndexNotAvailable
  | liDARFunctionUnsupported
deriving DecidableEq, Repr

/-- `pylidar.basedriver.Extent`: a rectangular region plus a bin size
(`gridindex.py` builds these with positional arguments
`Extent(xMin, xMax, yMin, yMax, binSize)`). -/
@[ext]
structure Extent where
  xMin : ℚ
  xMax : ℚ
  yMin : ℚ
  yMax : ℚ
  binSize : ℚ
deriving DecidableEq, Repr

/-- The three array classes used by the scaling calls
(`ARRAY_TYPE_PULSES`, `ARRAY_TYPE_POINTS`, `ARRAY_TYPE_WAVEFORMS`). -/
inductive ArrayType where
  | pulses
  | points
  | waveforms
deriving DecidableEq, Repr

/-- One `setScaling(field, arrayType, gain, offset)` call. -/
structure ScaleEvent where
  field : String
  arrType : ArrayType
  gain : ℚ
  offset : ℚ
deriving DecidableEq, Repr

/-- Exact division as the code intends it: with numpy operands a zero
denominator produces an infinite quotient (unusable as a gain), modelled
here as a failure value. -/
def divE (a b : ℚ) : Except PyError ℚ :=
  if b = 0 then .error .divByZero else .ok (a / b)

namespace GridIndex

/-- The first `subExtent` of the tile-generation loop
(`gridindex.py` line 109):
`Extent(extent.xMin, extent.xMin + blockSize, extent.yMax - blockSize, extent.yMax, binSize)`.
The local `binSize` always equals `extent.binSize` at this point (either the
extent was constructed from it, or line 97 reassigned it). -/
def initialSubExtent (extent : Extent) (blockSize : ℚ) : Extent :=
  ⟨extent.xMin, extent.xMin + blockSize, extent.yMax - blockSize, extent.yMax, extent.binSize⟩

/-- The in-place mutation of `subExtent` at the bottom of the loop body
(`gridindex.py` lines 124-135): move one block to the right; when the new
`xMin` reaches the global `xMax`, reset to the left edge and step one block
down, clamping the new `yMin` at zero (`if subExtent.yMin < 0: subExtent.yMin = 0.0`). -/
def advanceSubExtent (subExtent extent : Extent) (blockSize : ℚ) : Extent :=
  let moved : Extent := { subExtent with xMin := subExtent.xMin + blockSize,
                                         xMax := subExtent.xMax + blockSize }
  if moved.xMin ≥ extent.xMax then
    let down : Extent := { moved with xMin := extent.xMin,
                                      xMax := extent.xMin + blockSize,
                                      yMax := moved.yMax - blockSize,
                                      yMin := moved.yMin - blockSize }
    if down.yMin < 0 then { down with yMin := 0 } else down
  else moved

/-- The `while bMoreToDo` loop of `createGridSpatialIndex`
(`gridindex.py` lines 114-138) as a fuel-indexed recursion: each iteration
appends a copy of the current `subExtent`, advances it, and continues while
`subExtent.yMax > extent.yMin`.  The first iteration always runs
(`bMoreToDo` starts as `True`). -/
def tileLoop : Nat → Extent → Extent → ℚ → List Extent
  | 0, _, _, _ => []
  | fuel+1, subExtent, extent, blockSize =>
      let moved := advanceSubExtent subExtent extent blockSize
      subExtent :: (if moved.yMax > extent.yMin then tileLoop fuel moved extent blockSize else [])

/-- Number of tile columns the loop generates per row:
`⌈(xMax − xMin) / blockSize⌉`. -/
def numCols (extent : Extent) (blockSize : ℚ) : Nat :=
  (⌈(extent.xMax - extent.xMin) / blockSize⌉).toNat

/-- Number of tile rows the loop generates: `⌈(yMax − yMin) / blockSize⌉`. -/
def numRows (extent : Extent) (blockSize : ℚ) : Nat :=
  (⌈(extent.yMax - extent.yMin) / blockSize⌉).toNat

/-- Fuel sufficient for the loop to run to its natural termination: the loop
emits exactly one tile per column and row pair. -/
def tileFuel (extent : Extent) (blockSize : ℚ) : Nat :=
  numCols extent blockSize * numRows extent blockSize

/-- The ordered tile list produced by the loop of `createGridSpatialIndex`
(the `extentList` of `gridindex.py`, without the scratch drivers). -/
def tileList (extent : Extent) (blockSize : ℚ) : List Extent :=
  tileLoop (tileFuel extent blockSize) (initialSubExtent extent blockSize) extent blockSize

/-- Lower y-bound of generated row `k`: row 0 is never clamped; every later
row is clamped at zero.  (Analysis artefact used to state the loop's closed
form; derived from `advanceSubExtent`, not part of the source.) -/
def rowLo (extent : Extent) (blockSize : ℚ) (k : Nat) : ℚ :=
  if k = 0 then extent.yMax - blockSize
  else max (extent.yMax - ((k : ℚ) + 1) * blockSize) 0

/-- The tile the loop generates at column `i` of row `k` (closed form). -/
def tileAt (extent : Extent) (blockSize : ℚ) (i k : Nat) : Extent :=
  ⟨extent.xMin + (i : ℚ) * blockSize,
   extent.xMin + ((i : ℚ) + 1) * blockSize,
   rowLo extent blockSize k,
   extent.yMax - (k : ℚ) * blockSize,
   extent.binSize⟩

/-- Tiles of row `k` from column `i` onwards (closed form). -/
def tailRow (extent : Extent) (blockSize : ℚ) (i k : Nat) : List Extent :=
  (List.range (numCols extent blockSize - i)).map (fun j => tileAt extent blockSize (i + j) k)

/-- All tiles from column `i` of row `k` onwards (closed form). -/
def tailTiles (extent : Extent) (blockSize : ℚ) (i k : Nat) : List Extent :=
  tailRow extent blockSize i k ++
    ((List.range (numRows extent blockSize - (k + 1))).map
      (fun j => tailRow extent blockSize 0 (k + 1 + j))).flatten

/-- The per-pulse tile-membership mask of `classifyFunc`
(`gridindex.py` lines 281-282):
`(xIdx >= extent.xMin) & (xIdx < extent.xMax) & (yIdx > extent.yMin) & (yIdx <= extent.yMax)`. -/
def containsPulse (extent : Extent) (x y : ℚ) : Bool :=
  decide (x ≥ extent.xMin) && decide (x < extent.xMax) &&
  decide (y > extent.yMin) && decide (y ≤ extent.yMax)

/-- A driver's scaling-parameter table as observable through `getScaling`:
fields that have scaling map to their `(gain, offset)` pair; a field without
one makes `getScaling` raise `LiDARArrayColumnError`. -/
def ScalingStore := String → ArrayType → Option (ℚ × ℚ)

/-- `input.getScaling(field, arrayType)`. -/
def getScaling (store : ScalingStore) (field : String) (t : ArrayType) :
    Except PyError (ℚ × ℚ) :=
  match store field t with
  | some go => .ok go
  | none => .error .liDARArrayColumnError

/-- The pulse-level field list of `copyScaling` (`gridindex.py` line 212). -/
def pulseCopyFields : List String :=
  ["X_ORIGIN", "Y_ORIGIN", "Z_ORIGIN", "H_ORIGIN", "X_IDX", "Y_IDX", "AZIMUTH", "ZENITH"]

/-- The point-level field list of `copyScaling` (`gridindex.py` line 220). -/
def pointCopyFields : List String := ["X", "Y", "Z", "HEIGHT"]

/-- The waveform field list of `copyScaling` (`gridindex.py` line 227). -/
def waveformCopyFields : List String := ["RANGE_TO_WAVEFORM_START"]

/-- One iteration of a `copyScaling` loop: `try` reading the source scaling
and setting the same pair on the destination, `except LiDARArrayColumnError:
pass`.  Any other exception would propagate. -/
def copyOneField (input : ScalingStore) (t : ArrayType) (field : String) :
    Except PyError (List ScaleEvent) :=
  match getScaling input field t with
  | .ok go => .ok [⟨field, t, go.1, go.2⟩]
  | .error e => if e = .liDARArrayColumnError then .ok [] else .error e

/-- One of the three `for field in (...)` loops of `copyScaling`. -/
def copyFieldList (input : ScalingStore) (t : ArrayType) :
    List String → Except PyError (List ScaleEvent)
  | [] => .ok []
  | field :: rest => do
      let ev ← copyOneField input t field
      let evs ← copyFieldList input t rest
      .ok (ev ++ evs)

/-- `copyScaling(input, output)` (`gridindex.py` lines 204-232), as the list
of `setScaling` calls performed on the destination. -/
def copyScaling (input : ScalingStore) : Except PyError (List ScaleEvent) := do
  let e1 ← copyFieldList input .pulses pulseCopyFields
  let e2 ← copyFieldList input .points pointCopyFields
  let e3 ← copyFieldList input .waveforms waveformCopyFields
  .ok (e1 ++ e2 ++ e3)

/-- Spec-side characterization of one field's copy behaviour (from the
spec, section 4.3: attempt to read the source's pair and set the same pair
on the destination; a field absent from the source is silently skipped). -/
def copySpecField (input : ScalingStore) (t : ArrayType) (field : String) :
    List ScaleEvent :=
  match input field t with
  | some go => [⟨field, t, go.1, go.2⟩]
  | none => []

/-- Spec-side characterization of the whole `copyScaling` call. -/
def copySpec (input : ScalingStore) : List ScaleEvent :=
  pulseCopyFields.flatMap (copySpecField input .pulses) ++
  pointCopyFields.flatMap (copySpecField input .points) ++
  waveformCopyFields.flatMap (copySpecField input .waveforms)

/-- `numpy.iinfo` of an integer storage type: its minimum and maximum
representable values. -/
structure IInfo where
  imin : ℤ
  imax : ℤ
deriving DecidableEq, Repr

/-- `numpy.iinfo(driver.getNativeDataType(field, ARRAY_TYPE_PULSES))`:
the native integer bounds per pulse field of an SPDV4 driver (the driver
format is the same for every scratch file). -/
def NativeTypes := String → IInfo

/-- `setScalingForCoordField(driver, field, range, offset)`
(`gridindex.py` lines 234-241): `gain = (iinfo.max - iinfo.min) / range`,
then `setScaling(field, ARRAY_TYPE_PULSES, gain, offset)`. -/
def setScalingForCoordField (native : NativeTypes) (field : String)
    (range offset : ℚ) : Except PyError ScaleEvent := do
  let info := native field
  let gain ← divE ((info.imax : ℚ) - (info.imin : ℚ)) range
  .ok ⟨field, .pulses, gain, offset⟩

/-- The pulse-record fields that `classifyFunc` can use as the tiling key. -/
structure PulseRec where
  xIdx : ℚ
  yIdx : ℚ
  azimuth : ℚ
  zenith : ℚ
  scanlineIdx : ℚ
  scanline : ℚ
deriving DecidableEq, Repr

/-- One input chunk as read by `classifyFunc`: pulses, the per-pulse point
groups, and optional waveform-info / received / transmitted sub-records, all
aligned by pulse position. -/
structure Chunk where
  pulses : List PulseRec
  pointsByPulse : List (List ℚ)
  waveformInfo : Option (List ℚ)
  recv : Option (List ℚ)
  trans : Option (List ℚ)
deriving DecidableEq, Repr

/-- Whether `classifyFunc` supports this indexing method (`gridindex.py`
lines 262-273: cartesian, spherical and scan are handled, anything else
raises `LiDARSpatialIndexNotAvailable`). -/
def methodSupported (method : IndexMethod) : Bool :=
  match method with
  | .cartesian => true
  | .spherical => true
  | .scan => true
  | _ => false

/-- The `(xIdx, yIdx)` pair `classifyFunc` selects for one pulse; only
evaluated for supported methods (the unsupported branch raises first). -/
def coordKey (method : IndexMethod) (p : PulseRec) : ℚ × ℚ :=
  match method with
  | .cartesian => (p.xIdx, p.yIdx)
  | .spherical => (p.azimuth, p.zenith)
  | .scan => (p.scanlineIdx, p.scanline)
  | _ => (0, 0)

/-- numpy boolean-mask subsetting along the pulse axis: keep the entries
whose mask position is `True`. -/
def maskFilter (mask : List Bool) (xs : List α) : List α :=
  ((mask.zip xs).filter (fun mx => mx.1)).map (fun mx => mx.2)

/-- The `otherArgs` prepared by `createGridSpatialIndex` for the partition
phase (`gridindex.py` lines 150-157), minus the tile list itself. -/
structure OtherArgs where
  indexMethod : IndexMethod
  xOffset : ℚ
  xRange : ℚ
  yOffset : ℚ
  yRange : ℚ
deriving DecidableEq, Repr

/-- Driver calls performed by one `classifyFunc` invocation, tagged with the
position of the tile whose scratch driver receives them. -/
inductive ClassifyEvent where
  | scaleCopy (tile : Nat) (ev : ScaleEvent)
  | scaleCoord (tile : Nat) (ev : ScaleEvent)
  | writeData (tile : Nat) (pulses : List PulseRec) (points : List (List ℚ))
      (trans : Option (List ℚ)) (recv : Option (List ℚ))
      (waveformInfo : Option (List ℚ))
deriving DecidableEq, Repr

/-- The `driver.writeData(...)` call of one loop iteration of `classifyFunc`
(`gridindex.py` lines 281-304): build the membership mask, subset every
parallel array by it, overwrite `X_IDX`/`Y_IDX` of the subset with the
chosen key values, and skip absent or empty optional arrays. -/
def classifyWrite (extent : Extent) (method : IndexMethod) (chunk : Chunk)
    (tIdx : Nat) : ClassifyEvent :=
  let mask := chunk.pulses.map
    (fun p => containsPulse extent (coordKey method p).1 (coordKey method p).2)
  let pulsesSub := (maskFilter mask chunk.pulses).map
    (fun p => { p with xIdx := (coordKey method p).1, yIdx := (coordKey method p).2 })
  let pointsSub := maskFilter mask chunk.pointsByPulse
  let waveformInfoSub := match chunk.waveformInfo with
    | some w => if 0 < w.length then some (maskFilter mask w) else none
    | none => none
  let recvSub := match chunk.recv with
    | some r => if 0 < r.length then some (maskFilter mask r) else none
    | none => none
  let transSub := match chunk.trans with
    | some t => if 0 < t.length then some (maskFilter mask t) else none
    | none => none
  .writeData tIdx pulsesSub pointsSub transSub recvSub waveformInfoSub

/-- One iteration of the `for extent, driver in otherArgs.outList` loop of
`classifyFunc` (`gridindex.py` lines 254-304): on the first block copy the
source scaling; select the key fields for the index method (raising on an
unsupported one); re-derive the `X_IDX`/`Y_IDX` scaling from the global
range and offset on every chunk; then write the masked subset.  Returns the
driver calls performed and, when an exception was raised, which one. -/
def classifyTile (isFirstBlock : Bool) (input : ScalingStore)
    (native : NativeTypes) (oa : OtherArgs) (chunk : Chunk) (tIdx : Nat)
    (extent : Extent) : List ClassifyEvent × Option PyError :=
  let copyPart : Except PyError (List ClassifyEvent) :=
    if isFirstBlock then
      match copyScaling input with
      | .ok evs => .ok (evs.map (ClassifyEvent.scaleCopy tIdx))
      | .error e => .error e
    else .ok []
  match copyPart with
  | .error e => ([], some e)
  | .ok copyEvs =>
    if methodSupported oa.indexMethod then
      match setScalingForCoordField native "X_IDX" oa.xRange oa.xOffset with
      | .error e => (copyEvs, some e)
      | .ok evX =>
        match setScalingForCoordField native "Y_IDX" oa.yRange oa.yOffset with
        | .error e => (copyEvs ++ [.scaleCoord tIdx evX], some e)
        | .ok evY =>
          (copyEvs ++ [.scaleCoord tIdx evX, .scaleCoord tIdx evY,
            classifyWrite extent oa.indexMethod chunk tIdx], none)
    else (copyEvs, some .liDARSpatialIndexNotAvailable)

/-- The part of a `classifyTile` iteration after the first-block scaling
copy (analysis artefact: everything from the index-method dispatch on,
used to split a tile iteration into its copy part and the rest). -/
def classifyTileRest (native : NativeTypes) (oa : OtherArgs) (chunk : Chunk)
    (tIdx : Nat) (ext : Extent) : List ClassifyEvent × Option PyError :=
  if methodSupported oa.indexMethod then
    match setScalingForCoordField native "X_IDX" oa.xRange oa.xOffset with
    | .error e => ([], some e)
    | .ok evX =>
      match setScalingForCoordField native "Y_IDX" oa.yRange oa.yOffset with
      | .error e => ([.scaleCoord tIdx evX], some e)
      | .ok evY => ([.scaleCoord tIdx evX, .scaleCoord tIdx evY,
          classifyWrite ext oa.indexMethod chunk tIdx], none)
  else ([], some .liDARSpatialIndexNotAvailable)

/-- The loop of `classifyFunc` over the tile list, aborting at the first
raised exception. -/
def classifyLoop (isFirstBlock : Bool) (input : ScalingStore)
    (native : NativeTypes) (oa : OtherArgs) (chunk : Chunk) :
    List (Nat × Extent) → List ClassifyEvent × Option PyError
  | [] => ([], none)
  | (tIdx, extent) :: rest =>
    match classifyTile isFirstBlock input native oa chunk tIdx extent with
    | (evs, some e) => (evs, some e)
    | (evs, none) =>
      let tail := classifyLoop isFirstBlock input native oa chunk rest
      (evs ++ tail.1, tail.2)

/-- `classifyFunc(data, otherArgs)` (`gridindex.py` lines 243-304) for one
delivered chunk, over the ordered tile list. -/
def classifyFunc (isFirstBlock : Bool) (input : ScalingStore)
    (native : NativeTypes) (oa : OtherArgs) (outList : List Extent)
    (chunk : Chunk) : List ClassifyEvent × Option PyError :=
  classifyLoop isFirstBlock input native oa chunk outList.enum

/-- Whether a classify event is a `setScaling` call on a tile driver. -/
def isScaleEvent (ev : ClassifyEvent) : Bool :=
  match ev with
  | .scaleCopy _ _ => true
  | .scaleCoord _ _ => true
  | .writeData _ _ _ _ _ _ => false

/-- Whether a classify event is one of the `setScalingForCoordField` calls. -/
def isCoordEvent (ev : ClassifyEvent) : Bool :=
  match ev with
  | .scaleCoord _ _ => true
  | _ => false

/-- Whether a classify event comes from `copyScaling`. -/
def isCopyEvent (ev : ClassifyEvent) : Bool :=
  match ev with
  | .scaleCopy _ _ => true
  | _ => false

/-- One reopened scratch tile as seen by `indexAndMerge`: its sub-extent,
its total pulse count, and its driver's scaling table. -/
structure TileData where
  subExtent : Extent
  npulses : Nat
  store : ScalingStore

/-- Driver calls performed by `indexAndMerge` on the output store and the
progress sink. -/
inductive MergeEvent where
  | setPixelGrid (xMin xMax yMin yMax xRes yRes : ℚ)
  | setTotalSteps (n : Nat)
  | setProgress (n : Nat)
  | setExtent (e : Extent)
  | scaling (ev : ScaleEvent)
  | setHeader
  | writeData (npulses : Nat)
deriving DecidableEq, Repr

/-- The `for subExtent, driver in extentList` loop of `indexAndMerge`
(`gridindex.py` lines 325-347): a non-empty tile gets `setExtent` and
`writeData`; the scaling copy and the single `setHeader` are guarded by
`nFilesProcessed == 0`, and `nFilesProcessed` counts every processed tile,
empty ones included. -/
def mergeLoop (tiles : List TileData) (nFilesProcessed : Nat) :
    List MergeEvent × Option PyError :=
  match tiles with
  | [] => ([], none)
  | t :: rest =>
    if 0 < t.npulses then
      let headPart : Except PyError (List MergeEvent) :=
        if nFilesProcessed = 0 then
          match copyScaling t.store with
          | .ok evs => .ok ((evs.map MergeEvent.scaling) ++ [MergeEvent.setHeader])
          | .error e => .error e
        else .ok []
      match headPart with
      | .error e => ([MergeEvent.setExtent t.subExtent], some e)
      | .ok hevs =>
        let tail := mergeLoop rest (nFilesProcessed + 1)
        (MergeEvent.setExtent t.subExtent :: hevs ++
          [MergeEvent.writeData t.npulses, MergeEvent.setProgress (nFilesProcessed + 1)] ++
          tail.1, tail.2)
    else
      let tail := mergeLoop rest (nFilesProcessed + 1)
      (MergeEvent.setProgress (nFilesProcessed + 1) :: tail.1, tail.2)

/-- `indexAndMerge(extentList, extent, wkt, outfile, header, progress)`
(`gridindex.py` lines 306-349): create the output store with a pixel grid
derived from the global extent, then merge every tile in order. -/
def indexAndMerge (tiles : List TileData) (extent : Extent) :
    List MergeEvent × Option PyError :=
  let body := mergeLoop tiles 0
  (MergeEvent.setPixelGrid extent.xMin extent.xMax extent.yMin extent.yMax
      extent.binSize extent.binSize ::
    MergeEvent.setTotalSteps tiles.length :: MergeEvent.setProgress 0 ::
    body.1, body.2)

/-- Whether a merge event is the `setHeader` call. -/
def isSetHeader (ev : MergeEvent) : Bool :=
  match ev with
  | .setHeader => true
  | _ => false

/-- Whether a merge event is a `setScaling` call on the output store. -/
def isMergeScaling (ev : MergeEvent) : Bool :=
  match ev with
  | .scaling _ => true
  | _ => false

/-- The input file's header as read by `getLidarFileInfo`: a mapping from
key to numeric value, `none` meaning the key is missing (`KeyError`). -/
def HeaderIn := String → Option ℚ

/-- The header fields `createGridSpatialIndex` updates before merging
(`gridindex.py` lines 174-180). -/
structure HeaderOut where
  indexTlx : ℚ
  indexTly : ℚ
  numberBinsX : ℤ
  numberBinsY : ℤ
  indexType : IndexMethod
  binSize : ℚ
deriving DecidableEq, Repr

/-- The bounding-box header keys used per indexing method
(`gridindex.py` lines 69-88); `none` for the unsupported methods. -/
def boundsFieldsFor (method : IndexMethod) :
    Option (String × String × String × String) :=
  match method with
  | .cartesian => some ("X_MAX", "X_MIN", "Y_MAX", "Y_MIN")
  | .spherical => some ("AZIMUTH_MAX", "AZIMUTH_MIN", "ZENITH_MAX", "ZENITH_MIN")
  | .scan => some ("SCANLINE_IDX_MAX", "SCANLINE_IDX_MIN", "SCANLINE_MAX", "SCANLINE_MIN")
  | _ => none

/-- The extent/binSize resolution at the top of `createGridSpatialIndex`
(`gridindex.py` lines 66-97): with no explicit extent, build one from the
header bounding box (raising `LiDARSpatialIndexNotAvailable` for an
unsupported method and `LiDARFunctionUnsupported` on a missing key); with an
explicit extent, take it and replace the caller's `binSize` by
`extent.binSize`. -/
def resolveExtent (header : HeaderIn) (binSize : ℚ) (extentOpt : Option Extent)
    (method : IndexMethod) : Except PyError (Extent × ℚ) :=
  match extentOpt with
  | some e => .ok (e, e.binSize)
  | none =>
    match boundsFieldsFor method with
    | none => .error .liDARSpatialIndexNotAvailable
    | some keys =>
      match header keys.1, header keys.2.1, header keys.2.2.1, header keys.2.2.2 with
      | some xMax, some xMin, some yMax, some yMin =>
        .ok (⟨xMin, xMax, yMin, yMax, binSize⟩, binSize)
      | _, _, _, _ => .error .liDARFunctionUnsupported

/-- `BLOCKSIZE_N_BLOCKS` (`gridindex.py` line 37). -/
def BLOCKSIZE_N_BLOCKS : ℚ := 2

/-- The block-size derivation of `createGridSpatialIndex`
(`gridindex.py` lines 102-106): when no block size is given, take
`min(minAxis / BLOCKSIZE_N_BLOCKS, 200.0)` rounded up to a multiple of
`binSize` via `int(numpy.ceil(blockSize / binSize)) * binSize`. -/
def resolveBlockSize (extent : Extent) (binSize : ℚ) (blockSizeOpt : Option ℚ) : ℚ :=
  match blockSizeOpt with
  | some bs => bs
  | none =>
    let minAxis := min (extent.xMax - extent.xMin) (extent.yMax - extent.yMin)
    let raw := min (minAxis / BLOCKSIZE_N_BLOCKS) 200
    ((⌈raw / binSize⌉ : ℤ) : ℚ) * binSize

/-- The pure core of `createGridSpatialIndex` (`gridindex.py` lines 63-180):
resolve extent and bin size, resolve the block size, generate the ordered
tile list, and compute the header updates
(`INDEX_TLX`, `INDEX_TLY`, `NUMBER_BINS_X/Y` as `int(numpy.ceil(span / binSize))`,
`INDEX_TYPE`, `BIN_SIZE`).  Projection (wkt) handling and the driver
plumbing are external to this model. -/
def createGridCore (header : HeaderIn) (binSize : ℚ) (blockSizeOpt : Option ℚ)
    (extentOpt : Option Extent) (method : IndexMethod) :
    Except PyError (List Extent × HeaderOut) := do
  let res ← resolveExtent header binSize extentOpt method
  let extent := res.1
  let binSizeUsed := res.2
  let blockSize := resolveBlockSize extent binSizeUsed blockSizeOpt
  let tiles := tileList extent blockSize
  let hdr : HeaderOut :=
    ⟨extent.xMin, extent.yMax,
     ⌈(extent.xMax - extent.xMin) / binSizeUsed⌉,
     ⌈(extent.yMax - extent.yMin) / binSizeUsed⌉,
     method, binSizeUsed⟩
  .ok (tiles, hdr)

end GridIndex

namespace Las2Spdv4

/-- `PULSE_DEFAULT_GAINS` (`las2spdv4.py` lines 34-35). -/
def PULSE_DEFAULT_GAINS : List (String × ℚ) :=
  [("X_ORIGIN", 100), ("Y_ORIGIN", 100), ("Z_ORIGIN", 100),
   ("AZIMUTH", 100), ("ZENITH", 100), ("X_IDX", 100), ("Y_IDX", 100)]

/-- `PULSE_DEFAULT_OFFSETS` (`las2spdv4.py` lines 36-37). -/
def PULSE_DEFAULT_OFFSETS : List (String × ℚ) :=
  [("X_ORIGIN", 0), ("Y_ORIGIN", 0), ("Z_ORIGIN", 0),
   ("AZIMUTH", 0), ("ZENITH", 0), ("X_IDX", 0), ("Y_IDX", 0)]

/-- `POINT_DEFAULT_GAINS` (`las2spdv4.py` line 39). -/
def POINT_DEFAULT_GAINS : List (String × ℚ) :=
  [("X", 100), ("Y", 100), ("Z", 100), ("HEIGHT", 100)]

/-- `POINT_DEFAULT_OFFSETS` (`las2spdv4.py` line 40). -/
def POINT_DEFAULT_OFFSETS : List (String × ℚ) :=
  [("X", 0), ("Y", 0), ("Z", -100), ("HEIGHT", -100)]

/-- `WAVEFORM_DEFAULT_GAINS` (`las2spdv4.py` line 42). -/
def WAVEFORM_DEFAULT_GAINS : List (String × ℚ) := [("RANGE_TO_WAVEFORM_START", 100)]

/-- `WAVEFORM_DEFAULT_OFFSETS` (`las2spdv4.py` line 43). -/
def WAVEFORM_DEFAULT_OFFSETS : List (String × ℚ) := [("RANGE_TO_WAVEFORM_START", 0)]

/-- Python str.endswith("_MIN") on a key string.  (Lean's String.endsWith
is byte-position based and does not reduce in the kernel; this equivalent
character-list form does.) -/
def endsWithMin (s : String) : Bool := List.isSuffixOf "_MIN".data s.data

/-- Python str.replace("_MIN", "_MAX"): replace every (left-to-right,
non-overlapping) occurrence, on the character list. -/
def replaceMinMaxAux : List Char → List Char
  | [] => []
  | '_' :: 'M' :: 'I' :: 'N' :: rest => '_' :: 'M' :: 'A' :: 'X' :: replaceMinMaxAux rest
  | c :: rest => c :: replaceMinMaxAux rest

/-- Python str.replace("_MIN", "_MAX") on a key string. -/
def replaceMinMax (s : String) : String := ⟨replaceMinMaxAux s.data⟩

/-- Python dict lookup on an association list (first matching key). -/
def lookupQ (key : String) : List (String × ℚ) → Option ℚ
  | [] => none
  | kv :: rest => if key = kv.1 then some kv.2 else lookupQ key rest

/-- The `rangeDict` assembled by `rangeFunc`: observed `_MIN`/`_MAX` values
per scaled field, per array kind.  Python dict keys are unique and ordered
by insertion; modelled as association lists. -/
structure RangeDict where
  pulses : List (String × ℚ)
  points : List (String × ℚ)
  waveforms : List (String × ℚ)

/-- `np.iinfo(spdv4.PULSE_FIELDS[field]).max` and friends: the maximum
representable integer of each field's native storage type.  The spdv4 field
tables are external to this repository; the source writes `np` though only
`numpy` is imported, modelled here as the evident alias. -/
structure FieldWidths where
  pulseMax : String → ℤ
  pointMax : String → ℤ
  waveMax : String → ℤ

/-- `checkScalingPositive(gain, offset, minVal, varName)`
(`las2spdv4.py` lines 176-186): fails exactly when
`(minVal - offset) * gain < 0`.  On that path the message is built with
`"commandline. " % varName`, a format string without a conversion
specifier, so the call raises `TypeError` before ever reaching the
`raise LiDARInvalidSetting` statement. -/
def checkScalingPositive (gain offset minVal : ℚ) : Except PyError Unit :=
  if (minVal - offset) * gain < 0 then .error .typeError else .ok ()

/-- The pulse loop of `setOutputScaling` (`las2spdv4.py` lines 119-136):
for each `_MIN` key, a field with default gain/offset is checked by
`checkScalingPositive` and given the default pair; any other field gets
`gain = max_representable / (maxVal - minVal)` and `offset = minVal`
(a missing `_MAX` key would raise `KeyError`). -/
def processPulses (fw : FieldWidths) (tbl : List (String × ℚ)) :
    List (String × ℚ) → Except PyError (List ScaleEvent)
  | [] => .ok []
  | kv :: rest =>
    let key := kv.1
    let minVal := kv.2
    if endsWithMin key then
      let field := key.dropRight 4
      match lookupQ field PULSE_DEFAULT_GAINS with
      | some gain =>
        match lookupQ field PULSE_DEFAULT_OFFSETS with
        | some offset => do
          let _ ← checkScalingPositive gain offset minVal
          let evs ← processPulses fw tbl rest
          .ok (⟨field, .pulses, gain, offset⟩ :: evs)
        | none => .error .keyError
      | none =>
        match lookupQ (replaceMinMax key) tbl with
        | some maxVal => do
          let gain ← divE ((fw.pulseMax field : ℤ) : ℚ) (maxVal - minVal)
          let evs ← processPulses fw tbl rest
          .ok (⟨field, .pulses, gain, minVal⟩ :: evs)
        | none => .error .keyError
    else processPulses fw tbl rest

/-- The point loop of `setOutputScaling` (`las2spdv4.py` lines 139-157):
like the pulse loop, except that the derive branch guards
`maxVal == minVal` and uses `gain = 1.0` in that case. -/
def processPoints (fw : FieldWidths) (tbl : List (String × ℚ)) :
    List (String × ℚ) → Except PyError (List ScaleEvent)
  | [] => .ok []
  | kv :: rest =>
    let key := kv.1
    let minVal := kv.2
    if endsWithMin key then
      let field := key.dropRight 4
      match lookupQ field POINT_DEFAULT_GAINS with
      | some gain =>
        match lookupQ field POINT_DEFAULT_OFFSETS with
        | some offset => do
          let _ ← checkScalingPositive gain offset minVal
          let evs ← processPoints fw tbl rest
          .ok (⟨field, .points, gain, offset⟩ :: evs)
        | none => .error .keyError
      | none =>
        match lookupQ (replaceMinMax key) tbl with
        | some maxVal => do
          let gain ← if maxVal = minVal then pure (1 : ℚ)
            else divE ((fw.pointMax field : ℤ) : ℚ) (maxVal - minVal)
          let evs ← processPoints fw tbl rest
          .ok (⟨field, .points, gain, minVal⟩ :: evs)
        | none => .error .keyError
    else processPoints fw tbl rest

/-- The waveform loop of `setOutputScaling` (`las2spdv4.py` lines 160-174):
the default branch performs no `checkScalingPositive` call at all. -/
def processWaveforms (fw : FieldWidths) (tbl : List (String × ℚ)) :
    List (String × ℚ) → Except PyError (List ScaleEvent)
  | [] => .ok []
  | kv :: rest =>
    let key := kv.1
    let minVal := kv.2
    if endsWithMin key then
      let field := key.dropRight 4
      match lookupQ field WAVEFORM_DEFAULT_GAINS with
      | some gain =>
        match lookupQ field WAVEFORM_DEFAULT_OFFSETS with
        | some offset => do
          let evs ← processWaveforms fw tbl rest
          .ok (⟨field, .waveforms, gain, offset⟩ :: evs)
        | none => .error .keyError
      | none =>
        match lookupQ (replaceMinMax key) tbl with
        | some maxVal => do
          let gain ← divE ((fw.waveMax field : ℤ) : ℚ) (maxVal - minVal)
          let evs ← processWaveforms fw tbl rest
          .ok (⟨field, .waveforms, gain, minVal⟩ :: evs)
        | none => .error .keyError
    else processWaveforms fw tbl rest

/-- `setOutputScaling(rangeDict, output)` (`las2spdv4.py` lines 113-174):
the three loops in order, as the list of `setScaling` calls performed on
the output. -/
def setOutputScaling (fw : FieldWidths) (rd : RangeDict) :
    Except PyError (List ScaleEvent) := do
  let e1 ← processPulses fw rd.pulses rd.pulses
  let e2 ← processPoints fw rd.points rd.points
  let e3 ← processWaveforms fw rd.waveforms rd.waveforms
  .ok (e1 ++ e2 ++ e3)

/-- The pulse loop of `setOutputScaling` as literally written
(`las2spdv4.py` lines 119-136): the derive branch's gain expression starts
with `np.iinfo(...)`, but the module imports only `numpy`, never `np`, so
after the `_MAX` lookup (line 133, `KeyError` when missing) reaching
line 134 raises `NameError` before any division or `setScaling` call.
The default branch never touches `np` and behaves as in `processPulses`. -/
def processPulsesSrc (tbl : List (String × ℚ)) :
    List (String × ℚ) → Except PyError (List ScaleEvent)
  | [] => .ok []
  | kv :: rest =>
    let key := kv.1
    let minVal := kv.2
    if endsWithMin key then
      let field := key.dropRight 4
      match lookupQ field PULSE_DEFAULT_GAINS with
      | some gain =>
        match lookupQ field PULSE_DEFAULT_OFFSETS with
        | some offset => do
          let _ ← checkScalingPositive gain offset minVal
          let evs ← processPulsesSrc tbl rest
          .ok (⟨field, .pulses, gain, offset⟩ :: evs)
        | none => .error .keyError
      | none =>
        match lookupQ (replaceMinMax key) tbl with
        | some _ => .error .nameError
        | none => .error .keyError
    else processPulsesSrc tbl rest

/-- The point loop of `setOutputScaling` as literally written
(`las2spdv4.py` lines 139-157): the `maxVal == minVal` guard assigns
`gain = 1.0` without touching `np` and the iteration continues; the
`maxVal != minVal` derive branch starts with the undefined name `np`
(line 156) and raises `NameError`. -/
def processPointsSrc (tbl : List (String × ℚ)) :
    List (String × ℚ) → Except PyError (List ScaleEvent)
  | [] => .ok []
  | kv :: rest =>
    let key := kv.1
    let minVal := kv.2
    if endsWithMin key then
      let field := key.dropRight 4
      match lookupQ field POINT_DEFAULT_GAINS with
      | some gain =>
        match lookupQ field POINT_DEFAULT_OFFSETS with
        | some offset => do
          let _ ← checkScalingPositive gain offset minVal
          let evs ← processPointsSrc tbl rest
          .ok (⟨field, .points, gain, offset⟩ :: evs)
        | none => .error .keyError
      | none =>
        match lookupQ (replaceMinMax key) tbl with
        | some maxVal =>
          if maxVal = minVal then do
            let evs ← processPointsSrc tbl rest
            .ok (⟨field, .points, 1, minVal⟩ :: evs)
          else .error .nameError
        | none => .error .keyError
    else processPointsSrc tbl rest

/-- Output-store calls performed by `transFunc`. -/
inductive TransEvent where
  | scaling (ev : ScaleEvent)
  | setHeaderCall
  | setPoints (n : Nat)
  | setPulses (n : Nat)
  | setWaveformInfo (n : Nat)
  | setReceived (n : Nat)
deriving DecidableEq, Repr

/-- Whether a `transFunc` event writes record data to the output. -/
def isRecordWrite (ev : TransEvent) : Bool :=
  match ev with
  | .setPoints _ => true
  | .setPulses _ => true
  | .setWaveformInfo _ => true
  | .setReceived _ => true
  | _ => false

/-- `transFunc(data, otherDict)` (`las2spdv4.py` lines 217-237): on the
first block set the output scaling and write the header before any record
data; then write points, pulses and the non-empty optional arrays. -/
def transFunc (fw : FieldWidths) (rd : RangeDict) (isFirstBlock : Bool)
    (npoints npulses nwave nrecv : Nat) : List TransEvent × Option PyError :=
  let writes : List TransEvent :=
    [TransEvent.setPoints npoints, TransEvent.setPulses npulses] ++
    (if 0 < nwave then [TransEvent.setWaveformInfo nwave] else []) ++
    (if 0 < nrecv then [TransEvent.setReceived nrecv] else [])
  if isFirstBlock then
    match setOutputScaling fw rd with
    | .error e => ([], some e)
    | .ok evs => ((evs.map TransEvent.scaling) ++ [TransEvent.setHeaderCall] ++ writes, none)
  else (writes, none)

end Las2Spdv4

/-! ## General list-counting helpers -/

namespace ListFacts

theorem countP_range_succ (p : Nat → Bool) (n : Nat) :
    (List.range (n+1)).countP p = (List.range n).countP p + (if p n then 1 else 0) := by
  rw [List.range_succ, List.countP_append]
  simp [List.countP_cons]

theorem countP_range_zero (p : Nat → Bool) :
    ∀ n, (∀ j, j < n → p j = false) → (List.range n).countP p = 0 := by
  intro n
  induction n with
  | zero => intro _; simp
  | succ n ih =>
    intro h
    rw [countP_range_succ, ih (fun j hj => h j (Nat.lt_succ_of_lt hj)),
      h n (Nat.lt_succ_self n)]
    simp

theorem countP_range_one (p : Nat → Bool) :
    ∀ n i0, i0 < n → p i0 = true → (∀ j, j < n → p j = true → j = i0) →
    (List.range n).countP p = 1 := by
  intro n
  induction n with
  | zero => omega
  | succ n ih =>
    intro i0 h hp hu
    rcases Nat.lt_succ_iff_lt_or_eq.mp h with h2 | h2
    · have hn : p n = false := by
        rcases hb : p n with _ | _
        · rfl
        · exact absurd (hu n (Nat.lt_succ_self n) hb) (by omega)
      rw [countP_range_succ, hn,
        ih i0 h2 hp (fun j hj hpj => hu j (Nat.lt_succ_of_lt hj) hpj)]
      simp
    · subst h2
      rw [countP_range_succ, hp,
        countP_range_zero p i0 (fun j hj => by
          rcases hb : p j with _ | _
          · rfl
          · exact absurd (hu j (Nat.lt_succ_of_lt hj) hb) (by omega))]
      simp

theorem countP_range_le_one (p : Nat → Bool) (n : Nat)
    (hu : ∀ i j, i < n → j < n → p i = true → p j = true → i = j) :
    (List.range n).countP p ≤ 1 := by
  by_cases hex : ∃ i, i < n ∧ p i = true
  · obtain ⟨i0, hi0, hp0⟩ := hex
    rw [countP_range_one p n i0 hi0 hp0 (fun j hj hpj => hu j i0 hj hi0 hpj hp0)]
  · push_neg at hex
    rw [countP_range_zero p n (fun j hj => by
      rcases hb : p j with _ | _
      · rfl
      · exact absurd hb (hex j hj))]
    omega

theorem sum_map_range_succ (f : Nat → Nat) (n : Nat) :
    ((List.range (n+1)).map f).sum = ((List.range n).map f).sum + f n := by
  rw [List.range_succ]
  simp

theorem sum_map_range_zero (f : Nat → Nat) :
    ∀ n, (∀ j, j < n → f j = 0) → ((List.range n).map f).sum = 0 := by
  intro n
  induction n with
  | zero => intro _; simp
  | succ n ih =>
    intro h
    rw [sum_map_range_succ, ih (fun j hj => h j (Nat.lt_succ_of_lt hj)),
      h n (Nat.lt_succ_self n)]

theorem sum_map_range_single (f : Nat → Nat) :
    ∀ n k0, k0 < n → (∀ j, j < n → j ≠ k0 → f j = 0) →
    ((List.range n).map f).sum = f k0 := by
  intro n
  induction n with
  | zero => omega
  | succ n ih =>
    intro k0 h hz
    rcases Nat.lt_succ_iff_lt_or_eq.mp h with h2 | h2
    · rw [sum_map_range_succ,
        ih k0 h2 (fun j hj hne => hz j (Nat.lt_succ_of_lt hj) hne),
        hz n (Nat.lt_succ_self n) (by omega)]
      omega
    · subst h2
      rw [sum_map_range_succ,
        sum_map_range_zero f k0 (fun j hj => hz j (Nat.lt_succ_of_lt hj) (by omega))]
      omega

theorem countP_flatten_map_range {α : Type} (g : Nat → List α) (p : α → Bool) :
    ∀ n, (((List.range n).map g).flatten).countP p =
      ((List.range n).map (fun k => (g k).countP p)).sum := by
  intro n
  induction n with
  | zero => simp
  | succ n ih =>
    rw [List.range_succ]
    simp only [List.map_append, List.flatten_append, List.countP_append, ih]
    simp

end ListFacts

/-! ## The extent tiler: closed form of the tile-generation loop -/

namespace GridIndex

theorem lt_numCols_iff {e : Extent} {b : ℚ} (hb : 0 < b) (i : Nat) :
    i < numCols e b ↔ (i : ℚ) * b < e.xMax - e.xMin := by
  simp only [numCols]
  rw [Int.lt_toNat, Int.lt_ceil, lt_div_iff₀ hb]
  push_cast
  rfl

theorem lt_numRows_iff {e : Extent} {b : ℚ} (hb : 0 < b) (k : Nat) :
    k < numRows e b ↔ (k : ℚ) * b < e.yMax - e.yMin := by
  simp only [numRows]
  rw [Int.lt_toNat, Int.lt_ceil, lt_div_iff₀ hb]
  push_cast
  rfl

theorem numCols_pos {e : Extent} {b : ℚ} (hb : 0 < b) (hx : e.xMin < e.xMax) :
    0 < numCols e b := by
  rw [lt_numCols_iff hb]
  push_cast
  nlinarith

theorem numRows_pos {e : Extent} {b : ℚ} (hb : 0 < b) (hy : e.yMin < e.yMax) :
    0 < numRows e b := by
  rw [lt_numRows_iff hb]
  push_cast
  nlinarith

theorem span_le_numCols_mul {e : Extent} {b : ℚ} (hb : 0 < b) :
    e.xMax - e.xMin ≤ (numCols e b : ℚ) * b := by
  have h1 : (e.xMax - e.xMin) / b ≤ ((numCols e b : ℤ) : ℚ) := by
    refine le_trans (Int.le_ceil _) ?_
    simp only [numCols]
    exact_mod_cast Int.self_le_toNat _
  rw [div_le_iff₀ hb] at h1
  exact_mod_cast h1

theorem span_le_numRows_mul {e : Extent} {b : ℚ} (hb : 0 < b) :
    e.yMax - e.yMin ≤ (numRows e b : ℚ) * b := by
  have h1 : (e.yMax - e.yMin) / b ≤ ((numRows e b : ℤ) : ℚ) := by
    refine le_trans (Int.le_ceil _) ?_
    simp only [numRows]
    exact_mod_cast Int.self_le_toNat _
  rw [div_le_iff₀ hb] at h1
  exact_mod_cast h1

theorem ite_neg_zero_eq_max (q : ℚ) : (if q < 0 then (0:ℚ) else q) = max q 0 := by
  rcases lt_or_le q 0 with h | h
  · rw [if_pos h, max_eq_right h.le]
  · rw [if_neg (not_lt.2 h), max_eq_left h]

theorem rowLo_ge (e : Extent) (b : ℚ) (k : Nat) :
    e.yMax - ((k : ℚ) + 1) * b ≤ rowLo e b k := by
  simp only [rowLo]
  split
  · next h =>
    subst h
    push_cast
    simp
  · exact le_max_left _ _

theorem rowLo_succ (e : Extent) (b : ℚ) (k : Nat) :
    rowLo e b (k+1) = max (e.yMax - ((k : ℚ) + 1 + 1) * b) 0 := by
  simp only [rowLo, if_neg (Nat.succ_ne_zero k)]
  congr 2
  push_cast
  ring

theorem rowLo_step {e : Extent} {b : ℚ} (hb : 0 < b) (k : Nat) :
    (if rowLo e b k - b < 0 then (0:ℚ) else rowLo e b k - b) = rowLo e b (k+1) := by
  rw [ite_neg_zero_eq_max, rowLo_succ]
  rcases Nat.eq_zero_or_pos k with hk | hk
  · subst hk
    have h0 : rowLo e b 0 = e.yMax - b := by simp [rowLo]
    rw [h0]
    congr 1
    push_cast
    ring
  · have hk0 : k ≠ 0 := by omega
    have hA : rowLo e b k = max (e.yMax - ((k : ℚ) + 1) * b) 0 := by
      simp [rowLo, hk0]
    rw [hA]
    rcases le_or_lt (e.yMax - ((k : ℚ) + 1) * b) 0 with h | h
    · have h2 : e.yMax - ((k : ℚ) + 1 + 1) * b ≤ 0 := by nlinarith
      rw [max_eq_right h, zero_sub,
        max_eq_right (neg_nonpos.mpr hb.le), max_eq_right h2]
    · rw [max_eq_left h.le]
      congr 1
      ring

theorem advance_col {e : Extent} {b : ℚ} (hb : 0 < b) {i : Nat} (k : Nat)
    (h : i + 1 < numCols e b) :
    advanceSubExtent (tileAt e b i k) e b = tileAt e b (i+1) k := by
  have hx : ((i : ℚ) + 1) * b < e.xMax - e.xMin := by
    have h2 := (lt_numCols_iff hb (i+1)).1 h
    push_cast at h2
    linarith
  simp only [advanceSubExtent, tileAt]
  split_ifs with h1 h2
  · exfalso; nlinarith
  · exfalso; nlinarith
  · ext <;> first | rfl | (push_cast; ring)

theorem advance_row {e : Extent} {b : ℚ} (hb : 0 < b) {i : Nat} (k : Nat)
    (hi : i < numCols e b) (h : ¬ (i + 1 < numCols e b)) :
    advanceSubExtent (tileAt e b i k) e b = tileAt e b 0 (k+1) := by
  have hC : i + 1 = numCols e b := by omega
  have hx : e.xMax - e.xMin ≤ ((i : ℚ) + 1) * b := by
    have h2 := span_le_numCols_mul (e := e) (b := b) hb
    rw [← hC] at h2
    push_cast at h2
    linarith
  have hstep := rowLo_step (e := e) (b := b) hb k
  simp only [advanceSubExtent, tileAt]
  split_ifs with h1 h2
  · rw [if_pos h2] at hstep
    simp only [Extent.mk.injEq]
    exact ⟨by push_cast; ring, by push_cast; ring, hstep,
      by push_cast; ring, trivial⟩
  · rw [if_neg h2] at hstep
    simp only [Extent.mk.injEq]
    exact ⟨by push_cast; ring, by push_cast; ring, hstep,
      by push_cast; ring, trivial⟩
  · exfalso; nlinarith


theorem tailRow_cons {e : Extent} {b : ℚ} {i : Nat} (k : Nat)
    (hi : i < numCols e b) :
    tailRow e b i k = tileAt e b i k :: tailRow e b (i+1) k := by
  simp only [tailRow]
  rw [show numCols e b - i = (numCols e b - (i+1)) + 1 from by omega,
    List.range_succ_eq_map]
  simp only [List.map_cons, List.map_map, Nat.add_zero]
  refine congrArg (tileAt e b i k :: ·) ?_
  exact List.map_congr_left (fun j _ => by
    show tileAt e b (i + Nat.succ j) k = tileAt e b (i + 1 + j) k
    rw [show i + Nat.succ j = i + 1 + j from by omega])

theorem tailRow_singleton {e : Extent} {b : ℚ} {i : Nat} (k : Nat)
    (hC : i + 1 = numCols e b) :
    tailRow e b i k = [tileAt e b i k] := by
  simp only [tailRow]
  rw [show numCols e b - i = 1 from by omega]
  rfl

theorem tailTiles_cons_col {e : Extent} {b : ℚ} {i k : Nat}
    (hi : i < numCols e b) :
    tailTiles e b i k = tileAt e b i k :: tailTiles e b (i+1) k := by
  simp only [tailTiles]
  rw [tailRow_cons k hi]
  rfl

theorem tailTiles_row_step {e : Extent} {b : ℚ} {i k : Nat}
    (hC : i + 1 = numCols e b) (hrow : k + 1 < numRows e b) :
    tailTiles e b i k = tileAt e b i k :: tailTiles e b 0 (k+1) := by
  simp only [tailTiles]
  rw [tailRow_singleton k hC,
    show numRows e b - (k+1) = (numRows e b - (k+1+1)) + 1 from by omega,
    List.range_succ_eq_map]
  simp only [List.map_cons, List.flatten_cons, List.map_map, Nat.add_zero,
    List.singleton_append, List.cons_append]
  refine congrArg (tileAt e b i k :: ·) ?_
  refine congrArg (tailRow e b 0 (k + 1) ++ ·) ?_
  refine congrArg List.flatten ?_
  exact List.map_congr_left (fun j _ => by
    show tailRow e b 0 (k + 1 + Nat.succ j) = tailRow e b 0 (k + 1 + 1 + j)
    rw [show k + 1 + Nat.succ j = k + 1 + 1 + j from by omega])

theorem tailTiles_last {e : Extent} {b : ℚ} {i k : Nat}
    (hC : i + 1 = numCols e b) (hR : numRows e b = k + 1) :
    tailTiles e b i k = [tileAt e b i k] := by
  simp only [tailTiles]
  rw [tailRow_singleton k hC, show numRows e b - (k+1) = 0 from by omega]
  simp

theorem tileLoop_closed {e : Extent} {b : ℚ} (hb : 0 < b)
    (_hx : e.xMin < e.xMax) (_hy : e.yMin < e.yMax) :
    ∀ n i k, i < numCols e b → k < numRows e b →
      n = (numCols e b - i) + numCols e b * (numRows e b - k - 1) →
      tileLoop n (tileAt e b i k) e b = tailTiles e b i k := by
  intro n
  induction n using Nat.strong_induction_on with
  | _ n ih =>
    intro i k hi hk hn
    obtain ⟨m, rfl⟩ : ∃ m, n = m + 1 := ⟨n - 1, by omega⟩
    simp only [tileLoop]
    by_cases hcol : i + 1 < numCols e b
    · rw [advance_col hb k hcol]
      have hcond : (tileAt e b (i+1) k).yMax > e.yMin := by
        simp only [tileAt]
        have h2 := (lt_numRows_iff (e := e) (b := b) hb k).1 hk
        linarith
      rw [if_pos hcond, ih m (by omega) (i+1) k hcol hk (by omega)]
      exact (tailTiles_cons_col hi).symm
    · rw [advance_row hb k hi hcol]
      by_cases hrow : k + 1 < numRows e b
      · have hcond : (tileAt e b 0 (k+1)).yMax > e.yMin := by
          simp only [tileAt]
          have h2 := (lt_numRows_iff (e := e) (b := b) hb (k+1)).1 hrow
          push_cast at h2 ⊢
          linarith
        have hm : m = (numCols e b - 0) + numCols e b * (numRows e b - (k+1) - 1) := by
          rw [show numRows e b - k - 1 = (numRows e b - (k+1) - 1) + 1 from by omega,
            Nat.mul_succ] at hn
          omega
        rw [if_pos hcond, ih m (by omega) 0 (k+1) (by omega) hrow hm]
        exact (tailTiles_row_step (by omega) hrow).symm
      · have hR : numRows e b = k + 1 := by omega
        have hcond : ¬ ((tileAt e b 0 (k+1)).yMax > e.yMin) := by
          simp only [tileAt]
          have h2 : ¬ ((k : ℚ) + 1) * b < e.yMax - e.yMin := by
            intro hcon
            refine hrow ((lt_numRows_iff (e := e) (b := b) hb (k+1)).2 ?_)
            push_cast
            linarith
          push_cast at h2 ⊢
          linarith
        rw [if_neg hcond]
        exact (tailTiles_last (by omega) hR).symm

theorem tileList_closed {e : Extent} {b : ℚ} (hb : 0 < b)
    (hx : e.xMin < e.xMax) (hy : e.yMin < e.yMax) :
    tileList e b = tailTiles e b 0 0 := by
  have h0 : initialSubExtent e b = tileAt e b 0 0 := by
    simp only [initialSubExtent, tileAt, rowLo, Extent.mk.injEq]
    norm_num
  have hC := numCols_pos (e := e) (b := b) hb hx
  have hR := numRows_pos (e := e) (b := b) hb hy
  rw [tileList, h0]
  apply tileLoop_closed hb hx hy
  · omega
  · omega
  · simp only [tileFuel, Nat.sub_zero]
    have h2 : numCols e b * numRows e b
        = numCols e b * (numRows e b - 1) + numCols e b := by
      conv_lhs => rw [show numRows e b = (numRows e b - 1) + 1 from by omega]
      rw [Nat.mul_succ]
    omega

theorem containsPulse_iff (t : Extent) (x y : ℚ) :
    containsPulse t x y = true ↔
      (x ≥ t.xMin ∧ x < t.xMax ∧ y > t.yMin ∧ y ≤ t.yMax) := by
  simp [containsPulse, and_assoc]

theorem contains_tileAt_iff {e : Extent} {b : ℚ} (i k : Nat) (x y : ℚ) :
    containsPulse (tileAt e b i k) x y = true ↔
      ((e.xMin + (i : ℚ) * b ≤ x ∧ x < e.xMin + ((i : ℚ) + 1) * b) ∧
       (rowLo e b k < y ∧ y ≤ e.yMax - (k : ℚ) * b)) := by
  simp only [containsPulse, tileAt, Bool.and_eq_true, decide_eq_true_eq,
    ge_iff_le, gt_iff_lt]
  tauto

theorem colCond_unique {e : Extent} {b : ℚ} (hb : 0 < b) {x : ℚ} {i j : Nat}
    (hi : e.xMin + (i : ℚ) * b ≤ x ∧ x < e.xMin + ((i : ℚ) + 1) * b)
    (hj : e.xMin + (j : ℚ) * b ≤ x ∧ x < e.xMin + ((j : ℚ) + 1) * b) :
    i = j := by
  by_contra hne
  rcases Nat.lt_or_ge i j with h | h
  · have h2 : (i : ℚ) + 1 ≤ (j : ℚ) := by exact_mod_cast h
    nlinarith [hi.1, hi.2, hj.1, hj.2]
  · have h3 : j < i := by omega
    have h2 : (j : ℚ) + 1 ≤ (i : ℚ) := by exact_mod_cast h3
    nlinarith [hi.1, hi.2, hj.1, hj.2]

theorem rowCond_unique {e : Extent} {b : ℚ} (hb : 0 < b) {y : ℚ} {k l : Nat}
    (hk : rowLo e b k < y ∧ y ≤ e.yMax - (k : ℚ) * b)
    (hl : rowLo e b l < y ∧ y ≤ e.yMax - (l : ℚ) * b) :
    k = l := by
  by_contra hne
  rcases Nat.lt_or_ge k l with h | h
  · have h2 : (k : ℚ) + 1 ≤ (l : ℚ) := by exact_mod_cast h
    have h3 := rowLo_ge e b k
    nlinarith [hk.1, hl.2]
  · have h3 : l < k := by omega
    have h2 : (l : ℚ) + 1 ≤ (k : ℚ) := by exact_mod_cast h3
    have h4 := rowLo_ge e b l
    nlinarith [hl.1, hk.2]

theorem exists_col {e : Extent} {b : ℚ} (hb : 0 < b) {x : ℚ}
    (h1 : e.xMin ≤ x) (h2 : x < e.xMax) :
    ∃ i, i < numCols e b ∧
      e.xMin + (i : ℚ) * b ≤ x ∧ x < e.xMin + ((i : ℚ) + 1) * b := by
  have hu0 : (0:ℚ) ≤ (x - e.xMin) / b := div_nonneg (by linarith) hb.le
  have hz : (0:ℤ) ≤ ⌊(x - e.xMin) / b⌋ := Int.floor_nonneg.mpr hu0
  refine ⟨(⌊(x - e.xMin) / b⌋).toNat, ?_, ?_, ?_⟩
  · rw [lt_numCols_iff hb]
    have hle : ((⌊(x - e.xMin) / b⌋ : ℚ)) ≤ (x - e.xMin) / b := Int.floor_le _
    have hcast : (((⌊(x - e.xMin) / b⌋).toNat : ℕ) : ℚ) = ((⌊(x - e.xMin) / b⌋ : ℤ) : ℚ) := by
      rw [← Int.cast_natCast, Int.toNat_of_nonneg hz]
    rw [hcast]
    have h3 : ((⌊(x - e.xMin) / b⌋ : ℤ) : ℚ) * b ≤ x - e.xMin := by
      have := mul_le_mul_of_nonneg_right hle hb.le
      rwa [div_mul_cancel₀ _ (ne_of_gt hb)] at this
    linarith
  · have hle : ((⌊(x - e.xMin) / b⌋ : ℚ)) ≤ (x - e.xMin) / b := Int.floor_le _
    have hcast : (((⌊(x - e.xMin) / b⌋).toNat : ℕ) : ℚ) = ((⌊(x - e.xMin) / b⌋ : ℤ) : ℚ) := by
      rw [← Int.cast_natCast, Int.toNat_of_nonneg hz]
    rw [hcast]
    have h3 : ((⌊(x - e.xMin) / b⌋ : ℤ) : ℚ) * b ≤ x - e.xMin := by
      have := mul_le_mul_of_nonneg_right hle hb.le
      rwa [div_mul_cancel₀ _ (ne_of_gt hb)] at this
    linarith
  · have hlt : (x - e.xMin) / b < (⌊(x - e.xMin) / b⌋ : ℚ) + 1 := Int.lt_floor_add_one _
    have hcast : (((⌊(x - e.xMin) / b⌋).toNat : ℕ) : ℚ) = ((⌊(x - e.xMin) / b⌋ : ℤ) : ℚ) := by
      rw [← Int.cast_natCast, Int.toNat_of_nonneg hz]
    rw [hcast]
    have h3 : x - e.xMin < (((⌊(x - e.xMin) / b⌋ : ℤ) : ℚ) + 1) * b := by
      have := mul_lt_mul_of_pos_right hlt hb
      rwa [div_mul_cancel₀ _ (ne_of_gt hb)] at this
    linarith

theorem exists_row {e : Extent} {b : ℚ} (hb : 0 < b) (hy0 : 0 ≤ e.yMin)
    {y : ℚ} (h1 : e.yMin < y) (h2 : y ≤ e.yMax) :
    ∃ k, k < numRows e b ∧
      rowLo e b k < y ∧ y ≤ e.yMax - (k : ℚ) * b := by
  have hu0 : (0:ℚ) ≤ (e.yMax - y) / b := div_nonneg (by linarith) hb.le
  have hz : (0:ℤ) ≤ ⌊(e.yMax - y) / b⌋ := Int.floor_nonneg.mpr hu0
  have hcast : (((⌊(e.yMax - y) / b⌋).toNat : ℕ) : ℚ) = ((⌊(e.yMax - y) / b⌋ : ℤ) : ℚ) := by
    rw [← Int.cast_natCast, Int.toNat_of_nonneg hz]
  have hle : ((⌊(e.yMax - y) / b⌋ : ℚ)) ≤ (e.yMax - y) / b := Int.floor_le _
  have hlow : ((⌊(e.yMax - y) / b⌋ : ℤ) : ℚ) * b ≤ e.yMax - y := by
    have := mul_le_mul_of_nonneg_right hle hb.le
    rwa [div_mul_cancel₀ _ (ne_of_gt hb)] at this
  have hlt : (e.yMax - y) / b < (⌊(e.yMax - y) / b⌋ : ℚ) + 1 := Int.lt_floor_add_one _
  have hhigh : e.yMax - y < (((⌊(e.yMax - y) / b⌋ : ℤ) : ℚ) + 1) * b := by
    have := mul_lt_mul_of_pos_right hlt hb
    rwa [div_mul_cancel₀ _ (ne_of_gt hb)] at this
  refine ⟨(⌊(e.yMax - y) / b⌋).toNat, ?_, ?_, ?_⟩
  · rw [lt_numRows_iff hb, hcast]
    linarith
  · simp only [rowLo]
    split
    · next hk0 =>
      have h4 : (⌊(e.yMax - y) / b⌋ : ℤ) = 0 := by omega
      have h5 : ((⌊(e.yMax - y) / b⌋ : ℤ) : ℚ) = 0 := by rw [h4]; norm_num
      rw [h5] at hhigh
      linarith
    · next hk0 =>
      rw [max_lt_iff]
      constructor
      · rw [hcast]
        linarith
      · linarith
  · rw [hcast]
    linarith

theorem tailTiles_flatten {e : Extent} {b : ℚ} (hR : 0 < numRows e b) :
    tailTiles e b 0 0 =
      ((List.range (numRows e b)).map (fun k => tailRow e b 0 k)).flatten := by
  conv_rhs => rw [show numRows e b = (numRows e b - 1) + 1 from by omega,
    List.range_succ_eq_map]
  simp only [tailTiles, List.map_cons, List.flatten_cons, List.map_map]
  refine congrArg (tailRow e b 0 0 ++ ·) ?_
  refine congrArg List.flatten ?_
  exact List.map_congr_left (fun j _ => by
    show tailRow e b 0 (0 + 1 + j) = tailRow e b 0 (Nat.succ j)
    rw [show 0 + 1 + j = Nat.succ j from by omega])

theorem countP_tileList {e : Extent} {b : ℚ} (hb : 0 < b)
    (hx : e.xMin < e.xMax) (hy : e.yMin < e.yMax) (p : Extent → Bool) :
    (tileList e b).countP p =
      ((List.range (numRows e b)).map
        (fun k => (List.range (numCols e b)).countP
          (fun i => p (tileAt e b i k)))).sum := by
  rw [tileList_closed hb hx hy, tailTiles_flatten (numRows_pos hb hy),
    ListFacts.countP_flatten_map_range]
  refine congrArg List.sum ?_
  refine List.map_congr_left (fun k _ => ?_)
  simp only [tailRow, Nat.sub_zero, List.countP_map]
  refine List.countP_congr (fun i _ => ?_)
  show (p (tileAt e b (0 + i) k)) = true ↔ (p (tileAt e b i k)) = true
  rw [Nat.zero_add]

theorem tailRow_getLast {e : Extent} {b : ℚ} (k : Nat) (hC : 0 < numCols e b) :
    (tailRow e b 0 k).getLast? = some (tileAt e b (numCols e b - 1) k) := by
  simp only [tailRow, Nat.sub_zero]
  rw [show numCols e b = (numCols e b - 1) + 1 from by omega, List.range_succ]
  rw [List.map_append, List.getLast?_append]
  simp

theorem tileList_getLast {e : Extent} {b : ℚ} (hb : 0 < b)
    (hx : e.xMin < e.xMax) (hy : e.yMin < e.yMax) :
    (tileList e b).getLast? =
      some (tileAt e b (numCols e b - 1) (numRows e b - 1)) := by
  have hC := numCols_pos hb hx
  have hR := numRows_pos hb hy
  rw [tileList_closed hb hx hy, tailTiles_flatten hR]
  rw [show numRows e b = (numRows e b - 1) + 1 from by omega, List.range_succ]
  rw [List.map_append, List.flatten_append]
  rw [List.getLast?_append]
  simp only [List.map_cons, List.map_nil, List.flatten_cons, List.flatten_nil,
    List.append_nil]
  rw [tailRow_getLast _ (by omega)]
  simp

/-- Helper for the concrete instances: 90 is not a natural multiple of 50. -/
theorem ninety_not_nat_mult_fifty : ∀ n : ℕ, (n : ℚ) * 50 ≠ 90 := by
  intro n hn
  have h4 : ((n : ℕ) : ℚ) < 2 := by linarith
  have h5 : (1 : ℚ) < ((n : ℕ) : ℚ) := by linarith
  have h6 : n < 2 := by exact_mod_cast h4
  have h7 : 1 < n := by exact_mod_cast h5
  omega

/-- C7: for the global extent (0,100,0,100) with binSize 1 and blockSize 50
the loop yields exactly the four sub-extents (0,50,50,100), (50,100,50,100),
(0,50,0,50), (50,100,0,50), in that order. -/
theorem claimC7_example_tiles :
    tileList ⟨0, 100, 0, 100, 1⟩ 50 =
      [⟨0, 50, 50, 100, 1⟩, ⟨50, 100, 50, 100, 1⟩,
       ⟨0, 50, 0, 50, 1⟩, ⟨50, 100, 0, 50, 1⟩] := by
  have hf : tileFuel ⟨0, 100, 0, 100, 1⟩ 50 = 4 := by
    have h : tileFuel ⟨0, 100, 0, 100, 1⟩ 50 = Int.toNat 2 * Int.toNat 2 := by
      norm_num [tileFuel, numCols, numRows, Int.ceil_eq_iff]
    rw [h]
    rfl
  rw [tileList, hf]
  norm_num [tileLoop, advanceSubExtent, initialSubExtent]

/-- C2 counterexample: for the global extent (0,50,10,100) with blockSize 50
(which satisfies the claim's hypotheses: yMin = 10 > 0 and 50 does not
divide the y-span 90), the last generated row's lower y-bound is 0, not the
global yMin 10: the loop clamps at zero, not at the global lower bound. -/
theorem claimC2_counterexample :
    (0 : ℚ) < 10 ∧
    (¬ ∃ n : ℕ, (100 : ℚ) - 10 = (n : ℚ) * 50) ∧
    (tileList ⟨0, 50, 10, 100, 1⟩ 50).getLast? = some ⟨0, 50, 0, 50, 1⟩ ∧
    (0 : ℚ) ≠ 10 := by
  refine ⟨by norm_num, ?_, ?_, by norm_num⟩
  · rintro ⟨n, hn⟩
    exact ninety_not_nat_mult_fifty n (by linarith)
  · have hf : tileFuel ⟨0, 50, 10, 100, 1⟩ 50 = 2 := by
      have h9 : ⌈(9:ℚ)/5⌉ = (2:ℤ) := by
        rw [Int.ceil_eq_iff]
        norm_num
      have h : tileFuel ⟨0, 50, 10, 100, 1⟩ 50 = Int.toNat 1 * Int.toNat 2 := by
        norm_num [tileFuel, numCols, numRows, Int.ceil_eq_iff, h9]
      rw [h]
      rfl
    rw [tileList, hf]
    norm_num [tileLoop, advanceSubExtent, initialSubExtent]

/-- C2 (amended): in the tile-generation loop, for every global extent with
yMin > 0 and every positive blockSize smaller than and not dividing the
y-span, the last generated row's lower y-bound is clamped at ZERO: it is
nonnegative but lies strictly BELOW the global extent's yMin (the code
clamps with `if subExtent.yMin < 0: subExtent.yMin = 0.0`, not against
`extent.yMin`), so the last row is never negative-sized but extends below
the global extent. -/
theorem claimC2_amended (e : Extent) (b : ℚ) (hb : 0 < b)
    (hx : e.xMin < e.xMax) (hymin : 0 < e.yMin)
    (hspan : b < e.yMax - e.yMin)
    (hnd : ¬ ∃ n : ℕ, e.yMax - e.yMin = (n : ℚ) * b) :
    ∃ t : Extent, (tileList e b).getLast? = some t ∧
      0 ≤ t.yMin ∧ t.yMin < e.yMin := by
  have hy : e.yMin < e.yMax := by linarith
  have hR2 : 1 < numRows e b := by
    rw [lt_numRows_iff hb]
    push_cast
    linarith
  have hlt : e.yMax - e.yMin < (numRows e b : ℚ) * b := by
    refine lt_of_le_of_ne (span_le_numRows_mul hb) (fun hcon => hnd ?_)
    exact ⟨numRows e b, hcon⟩
  have hcast : ((numRows e b - 1 : ℕ) : ℚ) + 1 = (numRows e b : ℚ) := by
    rw [Nat.cast_sub (by omega : 1 ≤ numRows e b)]
    ring
  refine ⟨_, tileList_getLast hb hx hy, ?_, ?_⟩
  · simp only [tileAt, rowLo, if_neg (by omega : ¬ (numRows e b - 1 = 0))]
    exact le_max_right _ _
  · simp only [tileAt, rowLo, if_neg (by omega : ¬ (numRows e b - 1 = 0))]
    rw [max_lt_iff, hcast]
    exact ⟨by linarith, hymin⟩

/-- C2 amended, instantiated: the extent (0,50,10,100) with blockSize 50
(yMin = 10 > 0, 50 < 90, 50 does not divide 90) has a last generated row
whose lower y-bound is nonnegative but strictly below 10. -/
theorem claimC2_amended_witness :
    ∃ t : Extent, (tileList ⟨0, 50, 10, 100, 1⟩ 50).getLast? = some t ∧
      0 ≤ t.yMin ∧ t.yMin < (Extent.mk 0 50 10 100 1).yMin :=
  claimC2_amended ⟨0, 50, 10, 100, 1⟩ 50 (by norm_num) (by norm_num)
    (by norm_num) (by norm_num)
    (by rintro ⟨n, hn⟩; exact ninety_not_nat_mult_fifty n (by simp at hn; linarith))

/-- C3 (amended): the per-tile membership test of classifyFunc is exactly
x ≥ xMin AND x < xMax AND y > yMin AND y ≤ yMax; for a global extent with
0 ≤ yMin, every pulse inside the global extent (under the same half-open
convention) satisfies the test for exactly one generated tile, and every
pulse whatsoever satisfies it for at most one tile -- but a pulse strictly
outside the global extent may still satisfy it for one tile, because the
tiling overhangs the global extent on the high-x and low-y sides. -/
theorem claimC3_amended (e : Extent) (b x y : ℚ) (hb : 0 < b)
    (hx : e.xMin < e.xMax) (hy : e.yMin < e.yMax) (hy0 : 0 ≤ e.yMin) :
    (∀ t : Extent, containsPulse t x y = true ↔
      (x ≥ t.xMin ∧ x < t.xMax ∧ y > t.yMin ∧ y ≤ t.yMax)) ∧
    ((x ≥ e.xMin ∧ x < e.xMax ∧ y > e.yMin ∧ y ≤ e.yMax) →
      (tileList e b).countP (fun t => containsPulse t x y) = 1) ∧
    (tileList e b).countP (fun t => containsPulse t x y) ≤ 1 := by
  refine ⟨fun t => containsPulse_iff t x y, ?_, ?_⟩
  · rintro ⟨hx1, hx2, hy1, hy2⟩
    obtain ⟨i0, hi0C, hi0⟩ := exists_col (e := e) hb hx1 hx2
    obtain ⟨k0, hk0R, hk0⟩ := exists_row (e := e) hb hy0 hy1 hy2
    rw [countP_tileList hb hx hy]
    rw [ListFacts.sum_map_range_single _ _ k0 hk0R (fun j hjR hjne => ?_)]
    · refine ListFacts.countP_range_one _ _ i0 hi0C ?_ ?_
      · rw [contains_tileAt_iff]
        exact ⟨hi0, hk0⟩
      · intro j hjC hpj
        rw [contains_tileAt_iff] at hpj
        exact colCond_unique hb hpj.1 hi0
    · refine ListFacts.countP_range_zero _ _ (fun i hiC => ?_)
      rcases hc : containsPulse (tileAt e b i j) x y with _ | _
      · rfl
      · rw [contains_tileAt_iff] at hc
        exact absurd (rowCond_unique hb hc.2 hk0) hjne
  · rw [countP_tileList hb hx hy]
    by_cases hex : ∃ k, k < numRows e b ∧
        rowLo e b k < y ∧ y ≤ e.yMax - (k : ℚ) * b
    · obtain ⟨k0, hk0R, hk0⟩ := hex
      rw [ListFacts.sum_map_range_single _ _ k0 hk0R (fun j hjR hjne => ?_)]
      · refine ListFacts.countP_range_le_one _ _ (fun i j hiC hjC hpi hpj => ?_)
        rw [contains_tileAt_iff] at hpi hpj
        exact colCond_unique hb hpi.1 hpj.1
      · refine ListFacts.countP_range_zero _ _ (fun i hiC => ?_)
        rcases hc : containsPulse (tileAt e b i j) x y with _ | _
        · rfl
        · rw [contains_tileAt_iff] at hc
          exact absurd (rowCond_unique hb hc.2 hk0) hjne
    · push_neg at hex
      rw [ListFacts.sum_map_range_zero _ _ (fun j hjR => ?_)]
      · omega
      · refine ListFacts.countP_range_zero _ _ (fun i hiC => ?_)
        rcases hc : containsPulse (tileAt e b i j) x y with _ | _
        · rfl
        · rw [contains_tileAt_iff] at hc
          exact absurd hc.2.2 (not_le.mpr (hex j hjR hc.2.1))

/-- C3 counterexample: for the global extent (0,90,10,100) with blockSize 50
the pulse (95, 60) lies strictly outside the global extent (95 is past
xMax = 90), yet it satisfies the membership test for exactly one tile (the
overhanging tile (50,100,50,100)) -- not for none, as the claim states. -/
theorem claimC3_counterexample :
    ¬ ((95 : ℚ) < (Extent.mk 0 90 10 100 1).xMax) ∧
    (tileList ⟨0, 90, 10, 100, 1⟩ 50).countP
      (fun t => containsPulse t 95 60) = 1 := by
  constructor
  · norm_num
  · have h9 : ⌈(9:ℚ)/5⌉ = (2:ℤ) := by
      rw [Int.ceil_eq_iff]
      norm_num
    have hf : tileFuel ⟨0, 90, 10, 100, 1⟩ 50 = 4 := by
      have h : tileFuel ⟨0, 90, 10, 100, 1⟩ 50 = Int.toNat 2 * Int.toNat 2 := by
        norm_num [tileFuel, numCols, numRows, Int.ceil_eq_iff, h9]
      rw [h]
      rfl
    have hlist : tileList ⟨0, 90, 10, 100, 1⟩ 50 =
        [⟨0, 50, 50, 100, 1⟩, ⟨50, 100, 50, 100, 1⟩,
         ⟨0, 50, 0, 50, 1⟩, ⟨50, 100, 0, 50, 1⟩] := by
      rw [tileList, hf]
      norm_num [tileLoop, advanceSubExtent, initialSubExtent]
    rw [hlist]
    norm_num [List.countP_cons, List.countP_nil, containsPulse]

/-- C3 amended, instantiated: the pulse (30, 70) inside the global extent
(0,100,0,100) with blockSize 50 is assigned to exactly one tile. -/
theorem claimC3_amended_witness :
    (tileList ⟨0, 100, 0, 100, 1⟩ 50).countP
      (fun t => containsPulse t 30 70) = 1 :=
  (claimC3_amended ⟨0, 100, 0, 100, 1⟩ 50 30 70 (by norm_num) (by norm_num)
    (by norm_num) (by norm_num)).2.1
    ⟨by norm_num, by norm_num, by norm_num, by norm_num⟩

theorem copyFieldList_eq (input : ScalingStore) (t : ArrayType) :
    ∀ fields, copyFieldList input t fields =
      .ok (fields.flatMap (copySpecField input t)) := by
  intro fields
  induction fields with
  | nil => rfl
  | cons f rest ih =>
    simp only [copyFieldList, copyOneField, getScaling, copySpecField,
      List.flatMap_cons, ih]
    cases hf : input f t with
    | some go => rfl
    | none => rfl

theorem copyScaling_eq (input : ScalingStore) :
    copyScaling input = .ok (copySpec input) := by
  simp only [copyScaling, copySpec, copyFieldList_eq]
  rfl

/-- C8: copyScaling reads the (gain, offset) pair of every field in its
fixed per-array-type lists and sets the identical pair on the destination;
a field absent from the source (getScaling raising LiDARArrayColumnError)
is skipped silently, so the call never fails, whatever the source's
scaling table is. -/
theorem claimC8_copyScaling (input : ScalingStore) :
    copyScaling input = .ok (copySpec input) ∧
    (∀ ev ∈ copySpec input, input ev.field ev.arrType = some (ev.gain, ev.offset)) := by
  refine ⟨copyScaling_eq input, fun ev hev => ?_⟩
  simp only [copySpec, List.mem_append, List.mem_flatMap] at hev
  rcases hev with (⟨f, _, hf⟩ | ⟨f, _, hf⟩) | ⟨f, _, hf⟩ <;>
  · simp only [copySpecField] at hf
    revert hf
    cases hg : input f _ with
    | some go => intro hf; rcases List.mem_singleton.mp hf with rfl; exact hg
    | none => intro hf; exact absurd hf (List.not_mem_nil _)

/-- C8, instantiated: for a source whose only scaled field is the
point-level X with pair (2, 3), the copied event reproduces exactly that
pair. -/
theorem claimC8_copyScaling_witness :
    (fun f t => if f = "X" then
        (if t = ArrayType.points then some ((2 : ℚ), (3 : ℚ)) else none)
      else none : ScalingStore) "X" ArrayType.points = some (2, 3) :=
  (claimC8_copyScaling (fun f t => if f = "X" then
        (if t = ArrayType.points then some ((2 : ℚ), (3 : ℚ)) else none)
      else none)).2
    ⟨"X", ArrayType.points, 2, 3⟩ (by decide)

/-- C1 (code bug): in indexAndMerge the scaling copy and header write are
guarded by nFilesProcessed == 0, but nFilesProcessed counts every processed
tile, empty ones included.  With a tile list whose first tile is empty and
whose second holds 5 pulses, the header is never written (zero setHeader
calls and zero output setScaling calls), although the run succeeds and the
second tile's data is written; with the same tiles in the opposite order
the header is written exactly once.  The claim (and the spec) say the
header is written exactly once on the first non-empty tile regardless of
preceding empty tiles. -/
theorem claimC1_header_skipped :
    ((indexAndMerge
        [⟨⟨0, 50, 50, 100, 1⟩, 0, fun _ _ => none⟩,
         ⟨⟨50, 100, 50, 100, 1⟩, 5, fun _ _ => none⟩]
        ⟨0, 100, 0, 100, 1⟩).1.countP isSetHeader = 0) ∧
    ((indexAndMerge
        [⟨⟨0, 50, 50, 100, 1⟩, 0, fun _ _ => none⟩,
         ⟨⟨50, 100, 50, 100, 1⟩, 5, fun _ _ => none⟩]
        ⟨0, 100, 0, 100, 1⟩).1.countP isMergeScaling = 0) ∧
    ((indexAndMerge
        [⟨⟨0, 50, 50, 100, 1⟩, 0, fun _ _ => none⟩,
         ⟨⟨50, 100, 50, 100, 1⟩, 5, fun _ _ => none⟩]
        ⟨0, 100, 0, 100, 1⟩).2 = none) ∧
    (MergeEvent.writeData 5 ∈ (indexAndMerge
        [⟨⟨0, 50, 50, 100, 1⟩, 0, fun _ _ => none⟩,
         ⟨⟨50, 100, 50, 100, 1⟩, 5, fun _ _ => none⟩]
        ⟨0, 100, 0, 100, 1⟩).1) ∧
    ((indexAndMerge
        [⟨⟨50, 100, 50, 100, 1⟩, 5, fun _ _ => none⟩,
         ⟨⟨0, 50, 50, 100, 1⟩, 0, fun _ _ => none⟩]
        ⟨0, 100, 0, 100, 1⟩).1.countP isSetHeader = 1) := by
  refine ⟨?_, ?_, ?_, ?_, ?_⟩ <;>
    simp [indexAndMerge, mergeLoop, copyScaling_eq, copySpec, copySpecField,
      isSetHeader, isMergeScaling, List.countP_cons, List.countP_nil,
      pulseCopyFields, pointCopyFields, waveformCopyFields,
      List.flatMap_cons, List.flatMap_nil]

theorem filter_coord_map_copy (tIdx : Nat) :
    ∀ evs : List ScaleEvent,
      (evs.map (ClassifyEvent.scaleCopy tIdx)).filter isCoordEvent = [] := by
  intro evs
  induction evs with
  | nil => rfl
  | cons ev rest ih => simp [isCoordEvent, ih]

theorem filter_copy_map_copy (tIdx : Nat) :
    ∀ evs : List ScaleEvent,
      (evs.map (ClassifyEvent.scaleCopy tIdx)).filter isCopyEvent =
        evs.map (ClassifyEvent.scaleCopy tIdx) := by
  intro evs
  induction evs with
  | nil => rfl
  | cons ev rest ih => simp [isCopyEvent, ih]

theorem classifyTile_split (fb : Bool) (input : ScalingStore)
    (native : NativeTypes) (oa : OtherArgs) (c : Chunk) (tIdx : Nat)
    (ext : Extent) :
    classifyTile fb input native oa c tIdx ext =
      ((if fb then (copySpec input).map (ClassifyEvent.scaleCopy tIdx) else []) ++
        (classifyTileRest native oa c tIdx ext).1,
       (classifyTileRest native oa c tIdx ext).2) := by
  cases fb
  case false =>
    simp only [classifyTile, classifyTileRest, Bool.false_eq_true, if_false,
      ite_false, List.nil_append]
  case true =>
    simp only [classifyTile, classifyTileRest, copyScaling_eq, if_true, ite_true]
    cases hm : methodSupported oa.indexMethod
    · simp
    · cases hX : setScalingForCoordField native "X_IDX" oa.xRange oa.xOffset
      · simp
      · cases hY : setScalingForCoordField native "Y_IDX" oa.yRange oa.yOffset <;> simp

theorem classifyTileRest_coord (native : NativeTypes) (oa : OtherArgs)
    (c1 c2 : Chunk) (tIdx : Nat) (ext : Extent) :
    ((classifyTileRest native oa c1 tIdx ext).1.filter isCoordEvent =
     (classifyTileRest native oa c2 tIdx ext).1.filter isCoordEvent) ∧
    ((classifyTileRest native oa c1 tIdx ext).2 =
     (classifyTileRest native oa c2 tIdx ext).2) := by
  simp only [classifyTileRest]
  cases hm : methodSupported oa.indexMethod
  · simp
  · cases hX : setScalingForCoordField native "X_IDX" oa.xRange oa.xOffset
    · simp
    · cases hY : setScalingForCoordField native "Y_IDX" oa.yRange oa.yOffset
      · simp
      · simp [isCoordEvent, classifyWrite]

theorem classifyTileRest_no_copy (native : NativeTypes) (oa : OtherArgs)
    (c : Chunk) (tIdx : Nat) (ext : Extent) :
    (classifyTileRest native oa c tIdx ext).1.filter isCopyEvent = [] := by
  simp only [classifyTileRest]
  cases hm : methodSupported oa.indexMethod
  · simp
  · cases hX : setScalingForCoordField native "X_IDX" oa.xRange oa.xOffset
    · simp
    · cases hY : setScalingForCoordField native "Y_IDX" oa.yRange oa.yOffset
      · simp [isCopyEvent]
      · simp [isCopyEvent, classifyWrite]

theorem classifyLoop_coord (input : ScalingStore) (native : NativeTypes)
    (oa : OtherArgs) (c1 c2 : Chunk) (fb1 fb2 : Bool) :
    ∀ ps : List (Nat × Extent),
      ((classifyLoop fb1 input native oa c1 ps).1.filter isCoordEvent =
       (classifyLoop fb2 input native oa c2 ps).1.filter isCoordEvent) ∧
      ((classifyLoop fb1 input native oa c1 ps).2 =
       (classifyLoop fb2 input native oa c2 ps).2) := by
  have hcopy : ∀ (fb : Bool) (tI : Nat),
      ((if fb then (copySpec input).map (ClassifyEvent.scaleCopy tI)
        else []).filter isCoordEvent) = [] := by
    intro fb tI
    cases fb
    · rfl
    · simp [filter_coord_map_copy]
  intro ps
  induction ps with
  | nil => exact ⟨rfl, rfl⟩
  | cons p rest ih =>
    obtain ⟨tIdx, ext⟩ := p
    simp only [classifyLoop]
    rw [classifyTile_split fb1 input native oa c1 tIdx ext,
      classifyTile_split fb2 input native oa c2 tIdx ext]
    obtain ⟨hc, he⟩ := classifyTileRest_coord native oa c1 c2 tIdx ext
    cases hrest : (classifyTileRest native oa c1 tIdx ext).2 with
    | some e =>
      have hrest2 : (classifyTileRest native oa c2 tIdx ext).2 = some e :=
        he.symm.trans hrest
      rw [hrest2]
      constructor
      · simp [List.filter_append, hcopy, hc]
      · simp
    | none =>
      have hrest2 : (classifyTileRest native oa c2 tIdx ext).2 = none :=
        he.symm.trans hrest
      rw [hrest2]
      constructor
      · simp [List.filter_append, hcopy, hc, ih.1]
      · simp [ih.2]

theorem classifyLoop_no_copy (input : ScalingStore) (native : NativeTypes)
    (oa : OtherArgs) (c : Chunk) :
    ∀ ps : List (Nat × Extent),
      (classifyLoop false input native oa c ps).1.filter isCopyEvent = [] := by
  intro ps
  induction ps with
  | nil => rfl
  | cons p rest ih =>
    obtain ⟨tIdx, ext⟩ := p
    simp only [classifyLoop]
    rw [classifyTile_split false input native oa c tIdx ext]
    cases hrest : (classifyTileRest native oa c tIdx ext).2 with
    | some e =>
      simp [List.filter_append, classifyTileRest_no_copy]
    | none =>
      simp [List.filter_append, classifyTileRest_no_copy, ih]

/-- C4 (amended): in the partition phase, the copyScaling calls on the tile
stores happen only while processing the first chunk (a non-first chunk
performs no scaling copy), but the X_IDX/Y_IDX coordinate-key setScaling
calls are made on EVERY chunk, outside the first-block guard; they are
idempotent -- the coordinate setScaling calls of any chunk, first or not,
are identical, being derived from the fixed global range and offset. -/
theorem claimC4_amended (input : ScalingStore) (native : NativeTypes)
    (oa : OtherArgs) (outList : List Extent) (c1 c2 : Chunk) (fb : Bool) :
    ((classifyFunc false input native oa outList c1).1.filter isCopyEvent = []) ∧
    ((classifyFunc fb input native oa outList c1).1.filter isCoordEvent =
     (classifyFunc true input native oa outList c2).1.filter isCoordEvent) :=
  ⟨classifyLoop_no_copy input native oa c1 outList.enum,
   (classifyLoop_coord input native oa c1 c2 fb true outList.enum).1⟩

/-- C4 counterexample: a chunk delivered with the first-block flag false
(a chunk after the first) still causes two setScaling calls per tile: for
one cartesian tile, the trace of classifyFunc on a non-first chunk holds
exactly two scaling events (the X_IDX and Y_IDX coordinate re-derivations),
not zero as the claim requires. -/
theorem claimC4_counterexample :
    ((classifyFunc false (fun _ _ => none) (fun _ => ⟨0, 65535⟩)
        ⟨.cartesian, 0, 100, 0, 100⟩ [⟨0, 100, 0, 100, 1⟩]
        ⟨[], [], none, none, none⟩).1.countP isScaleEvent = 2) ∧
    ((classifyFunc false (fun _ _ => none) (fun _ => ⟨0, 65535⟩)
        ⟨.cartesian, 0, 100, 0, 100⟩ [⟨0, 100, 0, 100, 1⟩]
        ⟨[], [], none, none, none⟩).2 = none) := by
  norm_num [classifyFunc, classifyLoop, classifyTile, methodSupported,
    copyScaling_eq, setScalingForCoordField, divE, classifyWrite, maskFilter,
    coordKey, isScaleEvent, List.countP_cons, List.countP_nil, List.enum,
    Bind.bind, Except.bind]

/-- C9: when createGridSpatialIndex is called with an explicit extent, the
binSize argument is ignored entirely: the result is identical for any two
binSize arguments, and the tiling, the bin counts and the BIN_SIZE header
field are all computed from extent.binSize. -/
theorem claimC9_binSize_ignored (header : HeaderIn) (b1 b2 : ℚ)
    (bs : Option ℚ) (e : Extent) (m : IndexMethod) :
    createGridCore header b1 bs (some e) m = createGridCore header b2 bs (some e) m ∧
    createGridCore header b1 bs (some e) m =
      .ok (tileList e (resolveBlockSize e e.binSize bs),
        ⟨e.xMin, e.yMax,
         ⌈(e.xMax - e.xMin) / e.binSize⌉,
         ⌈(e.yMax - e.yMin) / e.binSize⌉,
         m, e.binSize⟩) :=
  ⟨rfl, rfl⟩

/-- C6: setScalingForCoordField, for any coordinate-key field and positive
range and offset, sets gain to (maxRepresentable − minRepresentable) / range
(the bounds of the field's native integer storage type) and passes the
offset through unchanged. -/
theorem claimC6_coord_scaling (native : NativeTypes) (field : String)
    (range offset : ℚ) (hrange : 0 < range) (_hoffset : 0 < offset) :
    setScalingForCoordField native field range offset =
      .ok ⟨field, .pulses,
        (((native field).imax : ℚ) - ((native field).imin : ℚ)) / range,
        offset⟩ := by
  simp [setScalingForCoordField, divE, hrange.ne', Bind.bind, Except.bind]

/-- C6, instantiated: a 16-bit unsigned field (bounds 0 and 65535) with
range 100 and offset 5 receives gain (65535 − 0) / 100 and offset 5. -/
theorem claimC6_coord_scaling_witness :
    setScalingForCoordField (fun _ => ⟨0, 65535⟩) "X_IDX" 100 5 =
      .ok ⟨"X_IDX", .pulses, (((65535:ℤ) : ℚ) - ((0:ℤ) : ℚ)) / 100, 5⟩ :=
  claimC6_coord_scaling (fun _ => ⟨0, 65535⟩) "X_IDX" 100 5
    (by norm_num) (by norm_num)

end GridIndex

namespace Las2Spdv4

set_option maxHeartbeats 1000000 in
theorem processPulses_ok_tail (fw : FieldWidths) (tbl : List (String × ℚ))
    (kv : String × ℚ) (rest : List (String × ℚ)) (evs : List ScaleEvent)
    (h : processPulses fw tbl (kv :: rest) = .ok evs) :
    ∃ evs2, processPulses fw tbl rest = .ok evs2 := by
  rw [processPulses] at h
  by_cases hend : endsWithMin kv.1 = true
  · rw [hend, if_pos rfl] at h
    try dsimp only at h
    rcases hg : lookupQ (kv.1.dropRight 4) PULSE_DEFAULT_GAINS with _ | gain
    · rw [hg] at h
      try dsimp only at h
      rcases hmax : lookupQ (replaceMinMax kv.1) tbl with _ | maxVal
      · rw [hmax] at h
        try dsimp only at h
        exact absurd h (by simp)
      · rw [hmax] at h
        try dsimp only at h
        rcases hd : divE ((fw.pulseMax (kv.1.dropRight 4) : ℤ) : ℚ) (maxVal - kv.2) with e | g2
        · rw [hd] at h
          try dsimp only at h
          exact absurd h (by simp [Bind.bind, Except.bind])
        · rw [hd] at h
          try dsimp only at h
          simp only [Bind.bind, Except.bind] at h
          rcases hr : processPulses fw tbl rest with e2 | evs2
          · rw [hr] at h
            try dsimp only at h
            exact absurd h (by simp)
          · exact ⟨evs2, rfl⟩
    · rw [hg] at h
      try dsimp only at h
      rcases ho : lookupQ (kv.1.dropRight 4) PULSE_DEFAULT_OFFSETS with _ | offset
      · rw [ho] at h
        try dsimp only at h
        exact absurd h (by simp)
      · rw [ho] at h
        try dsimp only at h
        rcases hc : checkScalingPositive gain offset kv.2 with e | u
        · rw [hc] at h
          try dsimp only at h
          exact absurd h (by simp [Bind.bind, Except.bind])
        · rw [hc] at h
          try dsimp only at h
          simp only [Bind.bind, Except.bind] at h
          rcases hr : processPulses fw tbl rest with e2 | evs2
          · rw [hr] at h
            try dsimp only at h
            exact absurd h (by simp)
          · exact ⟨evs2, rfl⟩
  · rw [if_neg hend] at h
    exact ⟨evs, h⟩


set_option maxHeartbeats 1000000 in
theorem processPoints_ok_tail (fw : FieldWidths) (tbl : List (String × ℚ))
    (kv : String × ℚ) (rest : List (String × ℚ)) (evs : List ScaleEvent)
    (h : processPoints fw tbl (kv :: rest) = .ok evs) :
    ∃ evs2, processPoints fw tbl rest = .ok evs2 := by
  rw [processPoints] at h
  by_cases hend : endsWithMin kv.1 = true
  · rw [hend, if_pos rfl] at h
    try dsimp only at h
    rcases hg : lookupQ (kv.1.dropRight 4) POINT_DEFAULT_GAINS with _ | gain
    · rw [hg] at h
      try dsimp only at h
      rcases hmax : lookupQ (replaceMinMax kv.1) tbl with _ | maxVal
      · rw [hmax] at h
        try dsimp only at h
        exact absurd h (by simp)
      · rw [hmax] at h
        try dsimp only at h
        by_cases heq : maxVal = kv.2
        · rw [if_pos heq] at h
          simp only [Bind.bind, Except.bind, pure, Except.pure] at h
          rcases hr : processPoints fw tbl rest with e2 | evs2
          · rw [hr] at h
            try dsimp only at h
            exact absurd h (by simp)
          · exact ⟨evs2, rfl⟩
        · rw [if_neg heq] at h
          rcases hd : divE ((fw.pointMax (kv.1.dropRight 4) : ℤ) : ℚ) (maxVal - kv.2) with e | g2
          · rw [hd] at h
            try dsimp only at h
            exact absurd h (by simp [Bind.bind, Except.bind])
          · rw [hd] at h
            try dsimp only at h
            simp only [Bind.bind, Except.bind] at h
            rcases hr : processPoints fw tbl rest with e2 | evs2
            · rw [hr] at h
              try dsimp only at h
              exact absurd h (by simp)
            · exact ⟨evs2, rfl⟩
    · rw [hg] at h
      try dsimp only at h
      rcases ho : lookupQ (kv.1.dropRight 4) POINT_DEFAULT_OFFSETS with _ | offset
      · rw [ho] at h
        try dsimp only at h
        exact absurd h (by simp)
      · rw [ho] at h
        try dsimp only at h
        rcases hc : checkScalingPositive gain offset kv.2 with e | u
        · rw [hc] at h
          try dsimp only at h
          exact absurd h (by simp [Bind.bind, Except.bind])
        · rw [hc] at h
          try dsimp only at h
          simp only [Bind.bind, Except.bind] at h
          rcases hr : processPoints fw tbl rest with e2 | evs2
          · rw [hr] at h
            try dsimp only at h
            exact absurd h (by simp)
          · exact ⟨evs2, rfl⟩
  · rw [if_neg hend] at h
    exact ⟨evs, h⟩


set_option maxHeartbeats 1000000 in
theorem processPulses_ok_check (fw : FieldWidths) (tbl : List (String × ℚ)) :
    ∀ l evs, processPulses fw tbl l = .ok evs →
      ∀ key minVal gain offset, (key, minVal) ∈ l →
        endsWithMin key = true →
        lookupQ (key.dropRight 4) PULSE_DEFAULT_GAINS = some gain →
        lookupQ (key.dropRight 4) PULSE_DEFAULT_OFFSETS = some offset →
        0 ≤ (minVal - offset) * gain := by
  intro l
  induction l with
  | nil =>
    intro evs h key minVal gain offset hmem
    exact absurd hmem (List.not_mem_nil _)
  | cons kv rest ih =>
    intro evs h key minVal gain offset hmem hend hg ho
    rcases List.mem_cons.mp hmem with heq | hmem2
    · have hk : key = kv.1 := by rw [← heq]
      have hv : minVal = kv.2 := by rw [← heq]
      rw [hk] at hend hg ho
      rw [hv]
      rw [processPulses] at h
      rw [hend, if_pos rfl] at h
      try dsimp only at h
      try dsimp only at h
      rw [hg] at h
      try dsimp only at h
      rw [ho] at h
      try dsimp only at h
      by_contra hneg
      push_neg at hneg
      rw [checkScalingPositive, if_pos hneg] at h
      exact absurd h (by simp [Bind.bind, Except.bind])
    · obtain ⟨evs2, h2⟩ := processPulses_ok_tail fw tbl kv rest evs h
      exact ih evs2 h2 key minVal gain offset hmem2 hend hg ho

set_option maxHeartbeats 1000000 in
theorem processPoints_ok_check (fw : FieldWidths) (tbl : List (String × ℚ)) :
    ∀ l evs, processPoints fw tbl l = .ok evs →
      ∀ key minVal gain offset, (key, minVal) ∈ l →
        endsWithMin key = true →
        lookupQ (key.dropRight 4) POINT_DEFAULT_GAINS = some gain →
        lookupQ (key.dropRight 4) POINT_DEFAULT_OFFSETS = some offset →
        0 ≤ (minVal - offset) * gain := by
  intro l
  induction l with
  | nil =>
    intro evs h key minVal gain offset hmem
    exact absurd hmem (List.not_mem_nil _)
  | cons kv rest ih =>
    intro evs h key minVal gain offset hmem hend hg ho
    rcases List.mem_cons.mp hmem with heq | hmem2
    · have hk : key = kv.1 := by rw [← heq]
      have hv : minVal = kv.2 := by rw [← heq]
      rw [hk] at hend hg ho
      rw [hv]
      rw [processPoints] at h
      rw [hend, if_pos rfl] at h
      try dsimp only at h
      try dsimp only at h
      rw [hg] at h
      try dsimp only at h
      rw [ho] at h
      try dsimp only at h
      by_contra hneg
      push_neg at hneg
      rw [checkScalingPositive, if_pos hneg] at h
      exact absurd h (by simp [Bind.bind, Except.bind])
    · obtain ⟨evs2, h2⟩ := processPoints_ok_tail fw tbl kv rest evs h
      exact ih evs2 h2 key minVal gain offset hmem2 hend hg ho

theorem setOutputScaling_ok_parts (fw : FieldWidths) (rd : RangeDict)
    (evs : List ScaleEvent) (h : setOutputScaling fw rd = .ok evs) :
    (∃ e1, processPulses fw rd.pulses rd.pulses = .ok e1) ∧
    (∃ e2, processPoints fw rd.points rd.points = .ok e2) := by
  rw [setOutputScaling] at h
  rcases h1 : processPulses fw rd.pulses rd.pulses with e | e1
  · rw [h1] at h
    exact absurd h (by simp [Bind.bind, Except.bind])
  · rw [h1] at h
    simp only [Bind.bind, Except.bind] at h
    rcases h2 : processPoints fw rd.points rd.points with e | e2
    · rw [h2] at h
      exact absurd h (by simp)
    · exact ⟨⟨e1, rfl⟩, ⟨e2, rfl⟩⟩

/-- C5 (amended): during output-scaling setup, the
(minObserved − offset) × gain ≥ 0 guarantee holds -- and failure occurs
before any record data is written -- only for the pulse- and point-level
fields with default gain/offset pairs, which checkScalingPositive guards;
the waveform default branch performs no such check (and derive-mode fields
satisfy the inequality trivially because offset = minVal).  On the failing
path checkScalingPositive raises a TypeError from a message-formatting slip
rather than the intended LiDARInvalidSetting, but either way transFunc
aborts with no record write. -/
theorem claimC5_amended (fw : FieldWidths) (rd : RangeDict) :
    (∀ evs, setOutputScaling fw rd = .ok evs →
      (∀ key minVal gain offset, (key, minVal) ∈ rd.pulses →
        endsWithMin key = true →
        lookupQ (key.dropRight 4) PULSE_DEFAULT_GAINS = some gain →
        lookupQ (key.dropRight 4) PULSE_DEFAULT_OFFSETS = some offset →
        0 ≤ (minVal - offset) * gain) ∧
      (∀ key minVal gain offset, (key, minVal) ∈ rd.points →
        endsWithMin key = true →
        lookupQ (key.dropRight 4) POINT_DEFAULT_GAINS = some gain →
        lookupQ (key.dropRight 4) POINT_DEFAULT_OFFSETS = some offset →
        0 ≤ (minVal - offset) * gain)) ∧
    (∀ err, setOutputScaling fw rd = .error err →
      ∀ np npu nw nr, transFunc fw rd true np npu nw nr = ([], some err)) := by
  constructor
  · intro evs h
    obtain ⟨⟨e1, h1⟩, ⟨e2, h2⟩⟩ := setOutputScaling_ok_parts fw rd evs h
    exact ⟨processPulses_ok_check fw rd.pulses rd.pulses e1 h1,
      processPoints_ok_check fw rd.points rd.points e2 h2⟩
  · intro err herr np npu nw nr
    simp [transFunc, herr]

/-- C5 counterexample: with observed waveform range
RANGE_TO_WAVEFORM_START ∈ [−1, 5] (and no pulse or point fields),
setOutputScaling succeeds and sets the default pair (gain 100, offset 0)
on RANGE_TO_WAVEFORM_START, yet (minObserved − offset) × gain = −100 < 0:
the waveform default branch is never checked, refuting the claim that every
successful run satisfies the inequality for every scaled field. -/
theorem claimC5_counterexample :
    setOutputScaling ⟨fun _ => 1000, fun _ => 1000, fun _ => 1000⟩
        ⟨[], [], [("RANGE_TO_WAVEFORM_START_MIN", -1),
                  ("RANGE_TO_WAVEFORM_START_MAX", 5)]⟩ =
      .ok [⟨"RANGE_TO_WAVEFORM_START", .waveforms, 100, 0⟩] ∧
    ((-1 : ℚ) - 0) * 100 < 0 := by
  constructor
  · rw [setOutputScaling]
    norm_num [processPulses, processPoints, processWaveforms, lookupQ,
      WAVEFORM_DEFAULT_GAINS, WAVEFORM_DEFAULT_OFFSETS,
      show endsWithMin "RANGE_TO_WAVEFORM_START_MIN" = true from by decide,
      show endsWithMin "RANGE_TO_WAVEFORM_START_MAX" = false from by decide,
      show ("RANGE_TO_WAVEFORM_START_MIN".dropRight 4) = "RANGE_TO_WAVEFORM_START"
        from by decide,
      Bind.bind, Except.bind]
  · norm_num

/-- C5 amended, instantiated: a rangeDict with the single pulse field
X_IDX (default gain 100, offset 0) and observed minimum 5 passes the check,
and indeed (5 − 0) × 100 ≥ 0. -/
theorem claimC5_amended_witness :
    0 ≤ ((5 : ℚ) - 0) * 100 := by
  have hval : setOutputScaling ⟨fun _ => 1000, fun _ => 1000, fun _ => 1000⟩
      ⟨[("X_IDX_MIN", 5)], [], []⟩ =
        .ok [⟨"X_IDX", .pulses, 100, 0⟩] := by
    rw [setOutputScaling]
    norm_num [processPulses, processPoints, processWaveforms, lookupQ,
      PULSE_DEFAULT_GAINS, PULSE_DEFAULT_OFFSETS, checkScalingPositive,
      show endsWithMin "X_IDX_MIN" = true from by decide,
      show ("X_IDX_MIN".dropRight 4) = "X_IDX" from by decide,
      Bind.bind, Except.bind]
  exact ((claimC5_amended ⟨fun _ => 1000, fun _ => 1000, fun _ => 1000⟩
      ⟨[("X_IDX_MIN", 5)], [], []⟩).1 _ hval).1
    "X_IDX_MIN" 5 100 0 (by simp) (by decide)
    (by norm_num [lookupQ, PULSE_DEFAULT_GAINS,
      show ("X_IDX_MIN".dropRight 4) = "X_IDX" from by decide])
    (by norm_num [lookupQ, PULSE_DEFAULT_OFFSETS,
      show ("X_IDX_MIN".dropRight 4) = "X_IDX" from by decide])

/-- C10 counterexample: the claim asserts that the pulse-level derive
branch of `setOutputScaling`, lacking a zero-range guard, is total under
the precondition maxVal > minVal.  For the non-default pulse field GAMMA
with observed minimum 3 and maximum 7 (so maxVal > minVal holds), the
pulse loop as literally written still fails: line 134's gain expression
begins with the undefined name `np` (the module imports only `numpy`),
raising `NameError` before any division or `setScaling` call. -/
theorem claimC10_counterexample :
    (3 : ℚ) < 7 ∧
    processPulsesSrc [("GAMMA_MIN", 3), ("GAMMA_MAX", 7)]
        [("GAMMA_MIN", 3), ("GAMMA_MAX", 7)] = .error .nameError := by
  constructor
  · norm_num
  · rw [processPulsesSrc]
    rw [show endsWithMin "GAMMA_MIN" = true from by decide, if_pos rfl]
    try dsimp only
    rw [show ("GAMMA_MIN".dropRight 4) = "GAMMA" from by decide,
      show lookupQ "GAMMA" PULSE_DEFAULT_GAINS = none from by decide]
    try dsimp only
    rw [show replaceMinMax "GAMMA_MIN" = "GAMMA_MAX" from by decide,
      show lookupQ "GAMMA_MAX" [("GAMMA_MIN", (3:ℚ)), ("GAMMA_MAX", 7)] = some 7
        from by decide]

/-- C10 (amended): in `setOutputScaling`, only the point-level derive
branch guards `maxVal == minVal`: a point-level field outside the defaults
table whose observed maximum equals its observed minimum gets gain 1.0
with no division and no use of `np`, and the loop continues.  The
pulse-level branch has no such guard, but it is not total even under
maxVal > minVal: its derive branch opens with `np.iinfo` and `np` is
undefined (only `numpy` is imported), so it raises `NameError` for every
observed range, and the point-level derive branch with maxVal ≠ minVal
fails the same way. -/
theorem claimC10_amended (f key : String) (minVal maxVal : ℚ)
    (hend : endsWithMin key = true)
    (hdrop : key.dropRight 4 = f)
    (hrep : replaceMinMax key = f ++ "_MAX")
    (hend2 : endsWithMin (f ++ "_MAX") = false)
    (hkey : ¬(f ++ "_MAX" = key))
    (hpd : lookupQ f PULSE_DEFAULT_GAINS = none)
    (hqd : lookupQ f POINT_DEFAULT_GAINS = none) :
    processPointsSrc [(key, minVal), (f ++ "_MAX", minVal)]
        [(key, minVal), (f ++ "_MAX", minVal)] =
      .ok [⟨f, .points, 1, minVal⟩] ∧
    processPulsesSrc [(key, minVal), (f ++ "_MAX", maxVal)]
        [(key, minVal), (f ++ "_MAX", maxVal)] = .error .nameError ∧
    (¬maxVal = minVal →
      processPointsSrc [(key, minVal), (f ++ "_MAX", maxVal)]
          [(key, minVal), (f ++ "_MAX", maxVal)] = .error .nameError) := by
  refine ⟨?_, ?_, fun hne => ?_⟩
  · rw [processPointsSrc]
    rw [hend, if_pos rfl]
    try dsimp only
    rw [hdrop, hqd]
    try dsimp only
    rw [hrep, lookupQ]
    try dsimp only
    rw [if_neg hkey, lookupQ]
    try dsimp only
    rw [if_pos rfl]
    try dsimp only
    rw [if_pos rfl]
    simp only [Bind.bind, Except.bind]
    rw [processPointsSrc]
    have h2 : ¬(endsWithMin (f ++ "_MAX") = true) := by
      rw [hend2]; exact Bool.false_ne_true
    rw [if_neg h2, processPointsSrc]
  · rw [processPulsesSrc]
    rw [hend, if_pos rfl]
    try dsimp only
    rw [hdrop, hpd]
    try dsimp only
    rw [hrep, lookupQ]
    try dsimp only
    rw [if_neg hkey, lookupQ]
    try dsimp only
    rw [if_pos rfl]
  · rw [processPointsSrc]
    rw [hend, if_pos rfl]
    try dsimp only
    rw [hdrop, hqd]
    try dsimp only
    rw [hrep, lookupQ]
    try dsimp only
    rw [if_neg hkey, lookupQ]
    try dsimp only
    rw [if_pos rfl]
    try dsimp only
    rw [if_neg hne]

/-- C10 amended, instantiated at the non-default field GAMMA: the point
loop with range [3, 3] succeeds with gain 1.0, the pulse loop with range
[3, 7] raises NameError, and the point loop with range [3, 7] raises
NameError. -/
theorem claimC10_amended_witness :
    processPointsSrc [("GAMMA_MIN", 3), ("GAMMA_MAX", 3)]
        [("GAMMA_MIN", 3), ("GAMMA_MAX", 3)] =
      .ok [⟨"GAMMA", .points, 1, 3⟩] ∧
    processPulsesSrc [("GAMMA_MIN", 3), ("GAMMA_MAX", 7)]
        [("GAMMA_MIN", 3), ("GAMMA_MAX", 7)] = .error .nameError ∧
    processPointsSrc [("GAMMA_MIN", 3), ("GAMMA_MAX", 7)]
        [("GAMMA_MIN", 3), ("GAMMA_MAX", 7)] = .error .nameError := by
  have h := claimC10_amended "GAMMA" "GAMMA_MIN" 3 7
    (by decide) (by decide) (by decide) (by decide) (by decide)
    (by decide) (by decide)
  exact ⟨h.1, h.2.1, h.2.2 (by norm_num)⟩

end Las2Spdv4
end PylidarSpec
